import Mathlib

/-!
Verification of the lokr API server (Rust, `src/api/src`) against its
natural-language specification.  The Rust handlers are shallowly embedded as
pure Lean functions over an explicit relational state (`DB`); SQL queries are
translated clause by clause, machine integers become `Int`/`Nat`, and fallible
code returns `Except`.
-/

namespace Lokr

/-! ## Levenshtein distance (`src/api/src/utils.rs`, `levenshtien`)

The Rust function is a two-row dynamic program over `a.chars()` / `b.chars()`.
We embed it on `List Char` and wrap it for `String`.
-/

/-- Reference (textbook) Levenshtein distance, recursing on the heads of the
two character lists: minimum of deletion + 1, insertion + 1, and substitution
cost (0 on matching characters, 1 otherwise). -/
def levRef : List Char → List Char → Nat
  | [], b => b.length
  | a, [] => a.length
  | ca :: as, cb :: bs =>
      min (levRef as (cb :: bs) + 1)
        (min (levRef (ca :: as) bs + 1)
          (levRef as bs + (if ca = cb then 0 else 1)))

/-- Embedding of the inner `for (j, cb) in b.chars().enumerate()` loop of
`levenshtien`.  `bs` is the remaining part of `b`, `rest` the not yet
overwritten tail of `cur` (old values from index `j+1` on), `pre` the saved
old `cur[j]`, and `left` the freshly written `cur[j]`. -/
def levLoop (ca : Char) : List Char → List Nat → Nat → Nat → List Nat
  | [], _, _, _ => []
  | _ :: _, [], _, _ => []
  | cb :: bs, tmp :: rest, pre, left =>
      let v := min (tmp + 1) (min (left + 1) (pre + if ca = cb then 0 else 1))
      v :: levLoop ca bs rest tmp v

/-- One iteration of the outer `for (i, ca) in a.chars().enumerate()` loop:
`pre = cur[0]; cur[0] = i + 1;` followed by the inner loop. -/
def levRowStep (i : Nat) (ca : Char) (b : List Char) (cur : List Nat) : List Nat :=
  match cur with
  | [] => []
  | c0 :: rest => (i + 1) :: levLoop ca b rest c0 (i + 1)

/-- The outer loop of `levenshtien`, threading the row `cur`. -/
def levRows (b : List Char) : List Char → Nat → List Nat → List Nat
  | [], _, cur => cur
  | ca :: as, i, cur => levRows b as (i + 1) (levRowStep i ca b cur)

/-- Body of `levenshtien` after the length swap: the two early returns for
empty inputs, then the dynamic program with `cur` initialized to
`[0, 1, …, len_b]` and the answer read from index `len_b`. -/
def levCore (a b : List Char) : Nat :=
  if a.length = 0 then b.length
  else if b.length = 0 then a.length
  else (levRows b a 0 (List.range (b.length + 1))).getD b.length 0

/-- `utils::levenshtien` on character lists.  The Rust source starts with
`if len_a < len_b { return levenshtien(b, a); }`; the swapped call
immediately falls through to the main body (its own guard is false), so the
recursion unfolds to a single conditional swap around the core. -/
def levenshtienL (a b : List Char) : Nat :=
  if a.length < b.length then levCore b a else levCore a b

/-- `utils::levenshtien` on strings (the Rust signature is `&str → &str`). -/
def levenshtien (a b : String) : Nat :=
  levenshtienL a.toList b.toList

/-! ### Correctness of the dynamic program

The row invariant is phrased over the *reversed* processed prefixes `xr` (of
`a`) and `yr` (of `b`): the cell written for column `j` holds
`levRef xr (reverse (take j b))`, and with reversed prefixes the head
recursion of `levRef` is exactly the update the loop performs. -/

/-- The tail of the invariant row: the cell values for the remaining columns
`bs`, given reversed processed prefixes `xr` and `yr`. -/
def rowFrom (xr yr : List Char) : List Char → List Nat
  | [] => []
  | cb :: bs => levRef xr (cb :: yr) :: rowFrom xr (cb :: yr) bs

theorem levRef_nil_left (b : List Char) : levRef [] b = b.length := by
  cases b <;> simp [levRef]

theorem levRef_nil_right (a : List Char) : levRef a [] = a.length := by
  cases a <;> simp [levRef]

theorem levLoop_rowFrom (ca : Char) (xr : List Char) :
    ∀ (bs yr : List Char),
      levLoop ca bs (rowFrom xr yr bs) (levRef xr yr) (levRef (ca :: xr) yr)
        = rowFrom (ca :: xr) yr bs := by
  intro bs
  induction bs with
  | nil => intro yr; rfl
  | cons cb bs ih =>
      intro yr
      show (min (levRef xr (cb :: yr) + 1)
          (min (levRef (ca :: xr) yr + 1)
            (levRef xr yr + if ca = cb then 0 else 1))) ::
          levLoop ca bs (rowFrom xr (cb :: yr) bs) (levRef xr (cb :: yr))
            (min (levRef xr (cb :: yr) + 1)
              (min (levRef (ca :: xr) yr + 1)
                (levRef xr yr + if ca = cb then 0 else 1)))
          = rowFrom (ca :: xr) yr (cb :: bs)
      have hv : min (levRef xr (cb :: yr) + 1)
          (min (levRef (ca :: xr) yr + 1)
            (levRef xr yr + if ca = cb then 0 else 1))
          = levRef (ca :: xr) (cb :: yr) := by
        simp [levRef]
      rw [hv, rowFrom, ih (cb :: yr)]

theorem levRowStep_rowFrom (i : Nat) (ca : Char) (b : List Char) (xr : List Char)
    (hi : xr.length = i) :
    levRowStep i ca b (xr.length :: rowFrom xr [] b)
      = (ca :: xr).length :: rowFrom (ca :: xr) [] b := by
  have h0 : levRef xr [] = xr.length := levRef_nil_right xr
  have h1 : levRef (ca :: xr) [] = xr.length + 1 := levRef_nil_right (ca :: xr)
  show (i + 1) :: levLoop ca b (rowFrom xr [] b) xr.length (i + 1)
      = (xr.length + 1) :: rowFrom (ca :: xr) [] b
  rw [← hi, ← h0]
  rw [show levRef xr [] + 1 = levRef (ca :: xr) [] by rw [h0, h1]]
  rw [levLoop_rowFrom ca xr b []]

theorem levRows_rowFrom (b : List Char) :
    ∀ (as xr : List Char),
      levRows b as xr.length (xr.length :: rowFrom xr [] b)
        = ((as.reverse ++ xr).length :: rowFrom (as.reverse ++ xr) [] b) := by
  intro as
  induction as with
  | nil => intro xr; simp [levRows]
  | cons ca as ih =>
      intro xr
      rw [levRows, levRowStep_rowFrom xr.length ca b xr rfl]
      have hlen : (ca :: xr).length = xr.length + 1 := rfl
      rw [← hlen, ih (ca :: xr)]
      simp [List.reverse_cons, List.append_assoc]

/-- The initial row `[0, 1, …, n]` is the invariant row for the empty
processed prefix. -/
theorem rowFrom_nil (b : List Char) :
    ∀ yr : List Char, rowFrom [] yr b = List.range' (yr.length + 1) b.length := by
  induction b with
  | nil => intro yr; rfl
  | cons cb bs ih =>
      intro yr
      rw [rowFrom, ih (cb :: yr), levRef_nil_left]
      simp only [List.length_cons, List.range'_succ]

/-- Reading cell `bs.length` out of an invariant row yields the distance to
the whole of `b` (reversed). -/
theorem rowFrom_getD (xr : List Char) :
    ∀ (bs yr : List Char) (x : Nat), x = levRef xr yr →
      (x :: rowFrom xr yr bs).getD bs.length 0 = levRef xr (bs.reverse ++ yr) := by
  intro bs
  induction bs with
  | nil =>
      intro yr x hx
      simpa using hx
  | cons cb bs ih =>
      intro yr x _
      show (x :: levRef xr (cb :: yr) :: rowFrom xr (cb :: yr) bs).getD (bs.length + 1) 0
          = levRef xr ((cb :: bs).reverse ++ yr)
      have := ih (cb :: yr) (levRef xr (cb :: yr)) rfl
      simpa [List.getD, List.reverse_cons, List.append_assoc] using this

/-- The dynamic-programming core computes `levRef` on the reversed inputs. -/
theorem levCore_eq_levRef (a b : List Char) :
    levCore a b = levRef a.reverse b.reverse := by
  unfold levCore
  by_cases ha : a.length = 0
  · have : a = [] := List.length_eq_zero.mp ha
    subst this
    simp [levRef_nil_left]
  · by_cases hb : b.length = 0
    · have : b = [] := List.length_eq_zero.mp hb
      subst this
      simp [ha, levRef_nil_right]
    · simp only [ha, hb, if_false]
      have hinit : List.range (b.length + 1) = (0 : Nat) :: rowFrom [] [] b := by
        rw [rowFrom_nil b []]
        rw [List.range_eq_range', List.range'_succ]
        norm_num
      rw [hinit]
      have hrows := levRows_rowFrom b a []
      simp only [List.append_nil, List.length_nil] at hrows
      rw [hrows]
      have hget := rowFrom_getD a.reverse b [] a.reverse.length
        (levRef_nil_right a.reverse).symm
      simpa using hget

/-! ### Mathematical properties of `levRef` -/

theorem levRef_comm : ∀ (x y : List Char), levRef x y = levRef y x := by
  intro x
  induction x with
  | nil => intro y; rw [levRef_nil_left, levRef_nil_right]
  | cons ca as ihx =>
      intro y
      induction y with
      | nil => rw [levRef_nil_left, levRef_nil_right]
      | cons cb bs ihy =>
          simp only [levRef]
          rw [ihx (cb :: bs), ihx bs, ihy]
          have hc : (if ca = cb then 0 else 1) = (if cb = ca then 0 else 1) := by
            by_cases h : ca = cb
            · simp [h]
            · rw [if_neg h, if_neg (fun hcb : cb = ca => h hcb.symm)]
          rw [hc]
          omega

theorem levRef_self (x : List Char) : levRef x x = 0 := by
  induction x with
  | nil => simp [levRef_nil_left]
  | cons c cs ih => simp [levRef, ih]

theorem levRef_eq_zero : ∀ {x y : List Char}, levRef x y = 0 → x = y := by
  intro x
  induction x with
  | nil =>
      intro y h
      rw [levRef_nil_left] at h
      exact (List.length_eq_zero.mp h).symm
  | cons cx xs ih =>
      intro y h
      cases y with
      | nil => rw [levRef_nil_right] at h; exact absurd h (by simp)
      | cons cy ys =>
          simp only [levRef] at h
          by_cases hc : cx = cy
          · simp only [hc, if_pos rfl] at h
            have hzero : levRef xs ys = 0 := by omega
            rw [hc, ih hzero]
          · simp only [if_neg hc] at h
            omega

theorem levRef_eq_zero_iff (x y : List Char) : levRef x y = 0 ↔ x = y :=
  ⟨levRef_eq_zero, fun h => h ▸ levRef_self x⟩

/-- The length swap at the top of `levenshtien` is sound: the function always
computes `levRef` of the reversed inputs. -/
theorem levenshtienL_eq_levRef (a b : List Char) :
    levenshtienL a b = levRef a.reverse b.reverse := by
  unfold levenshtienL
  by_cases h : a.length < b.length
  · rw [if_pos h, levCore_eq_levRef, levRef_comm]
  · rw [if_neg h, levCore_eq_levRef]

theorem toList_push (s : String) (c : Char) : (s.push c).toList = s.toList ++ [c] := rfl

theorem levenshtien_eq (a b : String) :
    levenshtien a b = levRef a.toList.reverse b.toList.reverse :=
  levenshtienL_eq_levRef _ _

/-- C10: `levenshtien` computes the standard Levenshtein edit distance: it is
symmetric, returns the character count of the other string when either string
is empty, returns 0 exactly on equal strings, and satisfies the reference
(textbook, prefix-based) recurrence: extending both strings by one character,
the distance is the minimum of deletion + 1, insertion + 1, and the
substitution cost (0 on matching characters, 1 otherwise). -/
theorem levenshtien_spec (a b : String) (ca cb : Char) :
    levenshtien a b = levenshtien b a
    ∧ levenshtien "" b = b.length
    ∧ levenshtien a "" = a.length
    ∧ (levenshtien a b = 0 ↔ a = b)
    ∧ levenshtien (a.push ca) (b.push cb)
        = min (levenshtien a (b.push cb) + 1)
            (min (levenshtien (a.push ca) b + 1)
              (levenshtien a b + if ca = cb then 0 else 1)) := by
  refine ⟨?_, ?_, ?_, ?_, ?_⟩
  · rw [levenshtien_eq, levenshtien_eq, levRef_comm]
  · rw [levenshtien_eq]
    show levRef [] b.toList.reverse = b.length
    rw [levRef_nil_left, List.length_reverse]
    rfl
  · rw [levenshtien_eq]
    show levRef a.toList.reverse [] = a.length
    rw [levRef_nil_right, List.length_reverse]
    rfl
  · rw [levenshtien_eq, levRef_eq_zero_iff, List.reverse_inj]
    exact ⟨fun h => String.ext h, fun h => congrArg String.toList h⟩
  · simp only [levenshtien_eq, toList_push, List.reverse_append, List.reverse_cons,
      List.reverse_nil, List.nil_append, List.singleton_append]
    simp [levRef]

/-! ## Data model

Rows of the SQLite tables (`user`, `file`, `share_user`, `share_link`,
`session`, `upload_transaction`), with UUIDs as `Nat`, SQL timestamps as
`Int` (seconds), and `i64` columns as `Int`.  `DB` also carries the blob
store: `uploads/{file_id}` blobs and `transactions/{tx_id}/{chunk}` staging
files. -/

structure UserRow where
  id : Nat
  username : String
  email : Option String
  total_space : Int
  used_space : Int
deriving Repr, DecidableEq

structure FileRow where
  id : Nat
  parent_id : Option Nat
  owner_id : Option Nat
  uploader_id : Option Nat
  is_directory : Bool
  encrypted_name : String
  encrypted_key : String
  mime : Option String
  file_nonce : Option String
  key_nonce : Option String
  name_nonce : String
  mime_type_nonce : Option String
  size : Int
deriving Repr, DecidableEq

structure ShareUserRow where
  file_id : Nat
  user_id : Nat
  encrypted_key : String
  edit_permission : Bool
deriving Repr, DecidableEq

structure ShareLinkRow where
  id : Nat
  file_id : Nat
  expires_at : Option Int
  password_hash : Option String
  edit_permission : Bool
deriving Repr, DecidableEq

structure SessionRow where
  id : Nat
  user_id : Nat
  number : Int
  last_used_at : Int
  idle_duration : Int
deriving Repr, DecidableEq

structure UploadTransactionRow where
  id : Nat
  owner_id : Option Nat
  uploader_id : Option Nat
  parent_id : Option Nat
  encrypted_key : String
  encrypted_name : String
  mime : Option String
  key_nonce : Option String
  mime_type_nonce : Option String
  name_nonce : String
  expected_size : Int
  chunk_size : Int
  total_chunks : Int
  current_chunks : Int
deriving Repr, DecidableEq

structure DB where
  now : Int
  users : List UserRow
  files : List FileRow
  share_users : List ShareUserRow
  share_links : List ShareLinkRow
  sessions : List SessionRow
  upload_transactions : List UploadTransactionRow
  blobs : List Nat
  tx_dirs : List Nat
  tx_chunks : List (Nat × Int)
deriving Repr, DecidableEq

/-- `error::AppError`, restricted to the variants the embedded handlers
produce.  `userError` carries the HTTP status code and the client message. -/
inductive AppError where
  | userError (status : Nat) (msg : String)
  | authError (msg : String)
  | storageError
deriving Repr, DecidableEq

instance {ε α : Type} [DecidableEq ε] [DecidableEq α] : DecidableEq (Except ε α) :=
  fun a b =>
    match a, b with
    | .ok x, .ok y => if h : x = y then .isTrue (by rw [h]) else .isFalse (by simp [h])
    | .error x, .error y => if h : x = y then .isTrue (by rw [h]) else .isFalse (by simp [h])
    | .ok _, .error _ => .isFalse (by simp)
    | .error _, .ok _ => .isFalse (by simp)

/-- upload.rs:35 -/
def ROOT_FILE_ENCRYPTED_KEY_LENGTH : Nat := 512
/-- upload.rs:36 -/
def CHILD_FILE_ENCRYPTED_KEY_LENGTH : Nat := 48
/-- utils.rs:8 -/
def NONCE_LENGTH : Nat := 12
/-- upload.rs:874, `2u64.pow(19)` -/
def MIN_CHUNK_SIZE : Int := 524288
/-- lib.rs:135 -/
def MAX_FILE_SIZE : Int := 1000000000

/-! ### Base64 (length behaviour of `base64::engine::general_purpose::STANDARD`) -/

/-- A character of the STANDARD base64 alphabet (`isUpper`/`isLower`/`isDigit`
are the ASCII ranges). -/
def isB64Char (c : Char) : Bool :=
  c.isUpper || c.isLower || c.isDigit || c == '+' || c == '/'

/-- Number of bytes obtained by decoding a canonical padded STANDARD base64
string; `none` when decoding is rejected.  Only the length behaviour of
`decode`/`decode_slice` is modelled, the decoded bytes themselves are opaque
ciphertext the server never inspects. -/
def b64_decoded_len (s : String) : Option Nat :=
  let cs := s.toList
  if cs.length % 4 != 0 then none
  else
    let pad := (cs.reverse.takeWhile (fun c => c == '=')).length
    if pad > 2 then none
    else if (cs.take (cs.length - pad)).all isB64Char then
      some (cs.length / 4 * 3 - pad)
    else none

/-- `check_nonce!` (utils.rs:22): decode into a `NONCE_LENGTH` buffer and
require exactly `NONCE_LENGTH` decoded bytes. -/
def check_nonce (s : String) : Bool := b64_decoded_len s == some NONCE_LENGTH

/-- `decode_slice` into a buffer of `cap` bytes: fails when the input is not
valid base64 or does not fit the buffer. -/
def b64_decode_into (cap : Nat) (s : String) : Option Nat :=
  match b64_decoded_len s with
  | none => none
  | some n => if n > cap then none else some n

/-! ### Table lookup and the recursive CTEs -/

def DB.file? (db : DB) (i : Nat) : Option FileRow :=
  db.files.find? (fun f => f.id == i)

def DB.user? (db : DB) (i : Nat) : Option UserRow :=
  db.users.find? (fun u => u.id == i)

/-- The recursive `ancestors` CTE: the file itself followed by its chain of
parents.  The SQL recursion is bounded only by the tree height; the embedding
carries fuel, and `DB.ancestors` supplies `db.files.length + 1`, enough to
exhaust any acyclic chain. -/
def ancestorsFrom (db : DB) : Nat → Nat → List Nat
  | 0, _ => []
  | fuel + 1, i =>
      match db.file? i with
      | none => []
      | some f =>
          i :: (match f.parent_id with
                | none => []
                | some p => ancestorsFrom db fuel p)

def DB.ancestors (db : DB) (i : Nat) : List Nat :=
  ancestorsFrom db (db.files.length + 1) i

def childrenOf (db : DB) (i : Nat) : List Nat :=
  (db.files.filter (fun f => f.parent_id == some i)).map (fun f => f.id)

/-- The recursive `descendants` / `children` CTE: the file itself and,
recursively, all files whose `parent_id` points into the set. -/
def descendantsFrom (db : DB) : Nat → Nat → List Nat
  | 0, _ => []
  | fuel + 1, i =>
      match db.file? i with
      | none => []
      | some _ => i :: (childrenOf db i).flatMap (descendantsFrom db fuel)

def DB.descendants (db : DB) (i : Nat) : List Nat :=
  descendantsFrom db (db.files.length + 1) i

/-! ### The share joins of the permission queries -/

/-- `LEFT JOIN share_user su ON su.file_id = file.id AND su.user_id = ?`:
with a `NULL` caller the join condition never holds. -/
def userShareRow? (db : DB) (caller : Option Nat) (a : Nat) : Option ShareUserRow :=
  match caller with
  | none => none
  | some c => db.share_users.find? (fun r => r.file_id == a && r.user_id == c)

/-- `LEFT JOIN share_link sl ON sl.file_id = file.id AND sl.id = ? AND
(expires_at IS NULL OR DATETIME(expires_at) >= CURRENT_TIMESTAMP) AND
(sl.password_hash IS NULL OR sl.password_hash = ?)`. -/
def linkShareRow? (db : DB) (link_id : Option Nat) (link_password : Option String)
    (a : Nat) : Option ShareLinkRow :=
  match link_id with
  | none => none
  | some lid =>
      db.share_links.find? (fun l =>
        l.file_id == a && l.id == lid
        && (match l.expires_at with | none => true | some e => decide (db.now ≤ e))
        && (match l.password_hash with
            | none => true
            | some h => link_password == some h))

/-- The same join without the password clause, as written in the `Move`
parent query of `update_file` (upload.rs:702-703). -/
def linkShareRowNoPassword? (db : DB) (link_id : Option Nat) (a : Nat) :
    Option ShareLinkRow :=
  match link_id with
  | none => none
  | some lid =>
      db.share_links.find? (fun l =>
        l.file_id == a && l.id == lid
        && (match l.expires_at with | none => true | some e => decide (db.now ≤ e)))

/-- SQL `owner_id = ?`: never true for a `NULL` caller. -/
def ownerMatches (f : FileRow) (caller : Option Nat) : Bool :=
  match caller with
  | none => false
  | some c => f.owner_id == some c

/-! ### `delete_file` / `update_file` permission gate (upload.rs:400-453, 569-621) -/

/-- The row returned (`LIMIT 1`) by the permission query shared verbatim by
`delete_file` and `update_file`: the first ancestor of the target whose
filter
`owner_id = caller ∨ (su.edit_permission ∧ su.file_id ≠ target) ∨ (sl.edit_permission ∧ sl.file_id ≠ target)`
holds, projected to `(owner_id, is_directory)`.  The share joins bind
`su.file_id`/`sl.file_id` to the ancestor itself, so the `≠ target` clauses
are the child exception: a share edge sitting directly on the target does not
authorize mutating the target. -/
def mutate_permission_row (db : DB) (caller link_id : Option Nat)
    (link_password : Option String) (target : Nat) : Option (Option Nat × Bool) :=
  (db.ancestors target).findSome? (fun a =>
    match db.file? a with
    | none => none
    | some f =>
        if ownerMatches f caller
            || (match userShareRow? db caller a with
                | some su => su.edit_permission && a != target
                | none => false)
            || (match linkShareRow? db link_id link_password a with
                | some sl => sl.edit_permission && a != target
                | none => false)
        then some (f.owner_id, f.is_directory) else none)

/-- Modelled from the spec: the `ON DELETE CASCADE` on `file.parent_id` lives
in the migrations, which are not under `src/`; §3 Lifecycle says files are
"deleted by cascade from root of deletion (subtree)", and `delete_file`
relies on it (`DELETE FROM file WHERE id = ?` plus the fetched descendant
list for blob removal).  Deleting the root row removes the whole subtree. -/
def cascade_delete_files (db : DB) (descendant_ids : List Nat) : List FileRow :=
  db.files.filter (fun f => ! descendant_ids.contains f.id)

/-- `upload::delete_file` (upload.rs:385-500): permission gate, then delete
the row (cascading), then remove the blob of every non-directory descendant,
ignoring not-found errors. -/
def delete_file (db : DB) (caller link_id : Option Nat)
    (link_password : Option String) (id : Nat) : Except AppError DB :=
  if (mutate_permission_row db caller link_id link_password id).isNone then
    .error (.userError 404 "File not found")
  else
    let descendant_files := db.descendants id
    let nondir := (db.files.filter (fun f =>
      descendant_files.contains f.id && !f.is_directory)).map (fun f => f.id)
    .ok { db with
      files := cascade_delete_files db descendant_files,
      blobs := db.blobs.filter (fun b => ! nondir.contains b) }

/-- `upload::UpdateFile` request body. -/
inductive UpdateFile where
  | Move (parent_id : Option Nat) (encrypted_key : String) (key_nonce : Option String)
  | Rename (encrypted_name : String) (name_nonce : String)
deriving Repr, DecidableEq

/-- The `Move` parent query of `update_file` (upload.rs:669-727): the first
row of `ancestors(new_parent) EXCEPT descendants(target)` whose filter
`owner_id = caller ∨ su.edit_permission ∨ sl.edit_permission` holds (this
query has no child exception, and its share-link join checks expiry but not
the password), projected to `(owner_id, is_directory)`. -/
def move_parent_row (db : DB) (caller link_id : Option Nat)
    (parent_id target : Nat) : Option (Option Nat × Bool) :=
  let children := db.descendants target
  ((db.ancestors parent_id).filter (fun a => ! children.contains a)).findSome? (fun a =>
    match db.file? a with
    | none => none
    | some f =>
        if ownerMatches f caller
            || (match userShareRow? db caller a with
                | some su => su.edit_permission
                | none => false)
            || (match linkShareRowNoPassword? db link_id a with
                | some sl => sl.edit_permission
                | none => false)
        then some (f.owner_id, f.is_directory) else none)

/-- `upload::update_file` (upload.rs:554-784). -/
def update_file (db : DB) (caller link_id : Option Nat)
    (link_password : Option String) (id : Nat) (body : UpdateFile) :
    Except AppError DB :=
  match mutate_permission_row db caller link_id link_password id with
  | none => .error (.userError 404 "Unable to find file to update")
  | some target =>
      match body with
      | .Move parent_id encrypted_key key_nonce =>
          if parent_id.isSome != key_nonce.isSome then
            .error (.userError 400
              "A new nonce is only needed if the file does not have a parent id")
          else if (match key_nonce with
                   | some n => !check_nonce n
                   | none => false) then
            .error (.userError 400
              "The provided mime type nonce is not the correct length!")
          else
            match b64_decode_into ROOT_FILE_ENCRYPTED_KEY_LENGTH encrypted_key with
            | none => .error (.userError 400 "Incorrect encrypted key length")
            | some key_length =>
                if (parent_id.isSome && key_length != CHILD_FILE_ENCRYPTED_KEY_LENGTH)
                    || (parent_id.isNone && key_length != ROOT_FILE_ENCRYPTED_KEY_LENGTH) then
                  .error (.userError 400 "Incorrect encrypted key length")
                else
                  match (match parent_id with
                         | some pid =>
                             match move_parent_row db caller link_id pid id with
                             | none =>
                                 Except.error (AppError.userError 404 "Unable to move file")
                             | some (owner, is_dir) => Except.ok (is_dir, owner)
                         | none => Except.ok (true, caller)) with
                  | .error e => .error e
                  | .ok (is_dir, owner) =>
                      if !is_dir then
                        .error (.userError 403 "Cannot set file parent to non-directories")
                      else if owner != target.1 then
                        .error (.userError 403 "Cannot move file to a different owner")
                      else
                        .ok { db with files := db.files.map (fun f =>
                          if f.id == id then
                            { f with parent_id := parent_id,
                                     encrypted_key := encrypted_key,
                                     key_nonce := key_nonce }
                          else f) }
      | .Rename encrypted_name name_nonce =>
          if !check_nonce name_nonce then
            .error (.userError 400 "The provided name nonce is not the correct length!")
          else
            .ok { db with files := db.files.map (fun f =>
              if f.id == id then
                { f with encrypted_name := encrypted_name, name_nonce := name_nonce }
              else f) }

/-! ## Upload pipeline (`upload.rs`) -/

/-- `upload::UploadMetadata` (upload.rs:44-80). -/
structure UploadMetadata where
  encrypted_file_name : String
  encrypted_mime_type : Option String
  encrypted_key : String
  file_nonce : Option String
  key_nonce : Option String
  name_nonce : String
  mime_type_nonce : Option String
  is_directory : Bool
  parent_id : Option Nat
deriving Repr, DecidableEq

/-- `upload::check_upload_metadata` (upload.rs:809-872). -/
def check_upload_metadata (m : UploadMetadata) (authenticated : Bool) :
    Except AppError Unit := do
  let key_length ← match b64_decode_into ROOT_FILE_ENCRYPTED_KEY_LENGTH m.encrypted_key with
    | none => Except.error (AppError.userError 400 "Incorrect encrypted key length")
    | some n => Except.ok n
  if authenticated then
    if (m.parent_id.isSome && key_length != CHILD_FILE_ENCRYPTED_KEY_LENGTH)
        || (m.parent_id.isNone && key_length != ROOT_FILE_ENCRYPTED_KEY_LENGTH) then
      Except.error (AppError.userError 400 "Incorrect encrypted key length")
    else pure ()
  else if key_length != CHILD_FILE_ENCRYPTED_KEY_LENGTH then
    Except.error (AppError.userError 400 "Incorrect encrypted key length")
  else pure ()
  if !check_nonce m.name_nonce then
    Except.error (AppError.userError 400 "The provided name nonce is not the correct length!")
  else pure ()
  if (match m.file_nonce with | some n => !check_nonce n | none => false) then
    Except.error (AppError.userError 400 "The provided file nonce is not the correct length!")
  else pure ()
  if (match m.mime_type_nonce with | some n => !check_nonce n | none => false) then
    Except.error (AppError.userError 400 "The provided mime type nonce is not the correct length!")
  else pure ()
  if (match m.key_nonce with | some n => !check_nonce n | none => false) then
    Except.error (AppError.userError 400 "The provided key nonce is not the correct length!")
  else pure ()
  if m.mime_type_nonce.isSome != m.encrypted_mime_type.isSome then
    Except.error (AppError.userError 400
      "Only include mime type nonce if there is a mime type to encrypt")
  else pure ()
  if m.is_directory == m.file_nonce.isSome then
    Except.error (AppError.userError 400
      "Include a file nonce only if the file is not a directory")
  else pure ()

/-- The `LIMIT 1` row of the parent permission query of
`get_owner_from_parent` (upload.rs:257-291): the first ancestor of the parent
whose filter `owner_id = caller ∨ su.edit_permission ∨ sl.edit_permission`
holds (no child exception here), projected to `(owner_id, is_directory)`. -/
def parent_permission_row (db : DB) (caller link_id : Option Nat)
    (link_password : Option String) (pid : Nat) : Option (Option Nat × Bool) :=
  (db.ancestors pid).findSome? (fun a =>
    match db.file? a with
    | none => none
    | some f =>
        if ownerMatches f caller
            || (match userShareRow? db caller a with
                | some su => su.edit_permission
                | none => false)
            || (match linkShareRow? db link_id link_password a with
                | some sl => sl.edit_permission
                | none => false)
        then some (f.owner_id, f.is_directory) else none)

/-- `upload::get_owner_from_parent` (upload.rs:241-320). -/
def get_owner_from_parent (db : DB) (parent_id : Option Nat)
    (key_nonce : Option String) (uuid : Option Nat)
    (link_password : Option String) (link_id : Option Nat) :
    Except AppError (Option Nat) :=
  match parent_id with
  | some pid =>
      match parent_permission_row db uuid link_id link_password pid with
      | some (owner_id, is_dir) =>
          if !is_dir then
            .error (.userError 400 "Parent file is not a directory")
          else if key_nonce.isNone then
            .error (.userError 400
              "A key nonce is required for files with a parent directory!")
          else .ok owner_id
      | none => .error (.userError 404 "Parent file not found!")
  | none => .ok uuid

/-- The `row_space` computation of `check_space` (upload.rs:337-351): the
byte length (`len()` on a Rust `String`) of each present field, and each
*absent* optional field still contributes `unwrap_or(1)` one byte. -/
def row_space (m : UploadMetadata) : Nat :=
  (match m.file_nonce with | some f => f.utf8ByteSize | none => 1)
  + (match m.key_nonce with | some k => k.utf8ByteSize | none => 1)
  + m.name_nonce.utf8ByteSize
  + (match m.mime_type_nonce with | some x => x.utf8ByteSize | none => 1)
  + m.encrypted_key.utf8ByteSize
  + m.encrypted_file_name.utf8ByteSize
  + (match m.encrypted_mime_type with | some e => e.utf8ByteSize | none => 1)

/-- `upload::check_space` (upload.rs:322-359). -/
def check_space (db : DB) (m : UploadMetadata) (owner_id : Nat) (file_size : Int) :
    Except AppError Unit :=
  match db.user? owner_id with
  | none => .error .storageError
  | some owner =>
      if owner.used_space + (row_space m : Int) + file_size > owner.total_space then
        .error (.userError 402 "File owner does not have enough free space")
      else .ok ()

/-! ## Share engine (`share.rs`) -/

/-- Opaque model of `argon2.hash_password`: the handlers only store hashes
and never compare them with plaintext, so only injectivity-in-shape matters. -/
def argon2_hash (password : String) : String := "$argon2$" ++ password

/-- Modelled from the spec: `is_owner` lives in the download module, which is
not under `src/`.  Per §4.7 share management is "owner-only" and §3 gives
every file at most one owner, so the check is that the file exists and its
`owner_id` is the caller. -/
def is_owner (db : DB) (user : Nat) (file_id : Nat) : Bool :=
  match db.file? file_id with
  | some f => f.owner_id == some user
  | none => false

structure ShareLinkResponse where
  link_id : Nat
  expires_at : Option Int
  password_protected : Bool
  edit_permission : Bool
deriving Repr, DecidableEq

/-- `share::share_with_link` (share.rs:130-205).  `link` stands for the fresh
`Uuid::new_v4()`. -/
def share_with_link (db : DB) (link : Nat) (file_id : Nat) (user : Option Nat)
    (expires : Nat) (password : Option String) (edit : Bool) :
    Except AppError (DB × ShareLinkResponse) :=
  let expires_at : Option Int := if expires > 0 then some (db.now + expires) else none
  if (match user with | some u => !is_owner db u file_id | none => false) then
    .error (.userError 404 "File not found")
  else if (match password with | some p => p.isEmpty | none => false) then
    .error (.userError 400 "Password cannot be empty!")
  else
    let password_hash := password.map argon2_hash
    let row : ShareLinkRow := {
      id := link, file_id := file_id, expires_at := expires_at,
      password_hash := password_hash, edit_permission := edit }
    .ok ({ db with share_links := db.share_links ++ [row] },
      { link_id := link, expires_at := expires_at,
        password_protected := password_hash.isSome, edit_permission := edit })

structure ShareUserResponse where
  user_id : Nat
  edit_permission : Bool
deriving Repr, DecidableEq

/-- `share::share_with_user` (share.rs:208-266).  The upsert is
`INSERT … ON CONFLICT DO UPDATE SET encrypted_key = ?`, so on conflict only
the key column changes; a missing receiver row violates the
`share_user.user_id` foreign key (SQLite error 787). -/
def share_with_user (db : DB) (file_id : Nat) (encrypted_key : String)
    (owner_id receiver_id : Nat) (edit : Bool) :
    Except AppError (DB × ShareUserResponse) :=
  if receiver_id == owner_id then
    .error (.userError 400 "Cannot share file with owner")
  else if !is_owner db owner_id file_id then
    .error (.userError 404 "File not found")
  else if (db.user? receiver_id).isNone then
    .error (.userError 400 "Invalid sharee id")
  else
    match db.share_users.find? (fun r => r.file_id == file_id && r.user_id == receiver_id) with
    | some _ =>
        .ok ({ db with share_users := db.share_users.map (fun r =>
            if r.file_id == file_id && r.user_id == receiver_id then
              { r with encrypted_key := encrypted_key }
            else r) },
          { user_id := receiver_id, edit_permission := edit })
    | none =>
        .ok ({ db with share_users := db.share_users ++
            [{ file_id := file_id, user_id := receiver_id,
               encrypted_key := encrypted_key, edit_permission := edit }] },
          { user_id := receiver_id, edit_permission := edit })

/-! ## Single-shot upload -/

structure UploadResponse where
  id : Nat
  size : Int
  is_directory : Bool
  link : Option ShareLinkResponse
deriving Repr, DecidableEq

inductive FsError where
  | notFound
deriving Repr, DecidableEq

/-- `tokio::fs::remove_file` on the blob store. -/
def fs_remove_file (blobs : List Nat) (i : Nat) : Except FsError (List Nat) :=
  if blobs.contains i then .ok (blobs.erase i) else .error .notFound

/-- `upload::cleanup` (upload.rs:112-121): remove the file at the path, if
any; a not-found error is ignored (it is the only removal error the
blob-store model produces; others are merely logged by the source too). -/
def cleanup (blobs : List Nat) : Option Nat → List Nat
  | none => blobs
  | some p =>
      match fs_remove_file blobs p with
      | .ok blobs' => blobs'
      | .error .notFound => blobs

/-- `UploadMetadata::process_upload_transaction` (upload.rs:1337-1426), one
attempt of the retried transaction: resolve the owner through the parent,
check quota for registered owners, insert the file row, and auto-create a
24-hour share link for anonymous root uploads.  On error the transaction
rolls back, which the `Except` return models by not producing a state.
`get_owner_from_parent` has already rejected a missing parent with 404, so
the FOREIGN KEY branch ("Invalid parent id") is unreachable sequentially.
`fresh_link` stands for the `Uuid::new_v4()` drawn inside
`share_with_link`. -/
def UploadMetadata.process_upload_transaction (m : UploadMetadata) (db : DB)
    (uuid link_id : Option Nat) (link_password : Option String)
    (file_id fresh_link : Nat) (file_size : Int) :
    Except AppError (DB × Option ShareLinkResponse) := do
  let owner_id ← get_owner_from_parent db m.parent_id m.key_nonce uuid link_password link_id
  match owner_id with
  | some oid => check_space db m oid file_size
  | none => pure ()
  let row : FileRow := {
    id := file_id, owner_id := owner_id, uploader_id := uuid,
    parent_id := m.parent_id, encrypted_key := m.encrypted_key,
    encrypted_name := m.encrypted_file_name, mime := m.encrypted_mime_type,
    file_nonce := m.file_nonce, key_nonce := m.key_nonce,
    mime_type_nonce := m.mime_type_nonce, name_nonce := m.name_nonce,
    is_directory := m.is_directory, size := file_size }
  let db1 := { db with files := db.files ++ [row] }
  if owner_id.isNone && m.parent_id.isNone then
    let (db2, link) ← share_with_link db1 fresh_link file_id uuid (60 * 60 * 24) none false
    return (db2, some link)
  else
    return (db1, none)

/-- The `result` block of `upload_file` (upload.rs:160-229): everything after
multipart parsing, run against the already-staged state `db0`.
`retry_upload_transaction` only repeats the closed transaction on
busy-snapshot conflicts, which the sequential model never produces, so one
attempt is run. -/
def upload_file_result (db0 : DB) (uuid link_id : Option Nat)
    (link_password : Option String) (file_id fresh_link : Nat)
    (metadata : Option UploadMetadata) (size : Int) :
    Except AppError (DB × UploadResponse) := do
  let some m := metadata
    | Except.error (AppError.userError 400 "Missing file metadata")
  check_upload_metadata m uuid.isSome
  let (db1, link) ←
    m.process_upload_transaction db0 uuid link_id link_password file_id fresh_link size
  return (db1, { id := file_id, size := size, is_directory := m.is_directory, link := link })

/-- The tail of `upload_file` for a given staging outcome: when the `file`
part was streamed (`staged`), the blob sits at `uploads/{file_id}` and
`file_size` was counted; otherwise no blob exists, `file_path` is `None` and
the size counter stayed 0.  Errors of the result block delete the staged
blob via `cleanup`. -/
def upload_file_with (db : DB) (staged : Bool) (uuid link_id : Option Nat)
    (link_password : Option String) (file_id fresh_link : Nat)
    (metadata : Option UploadMetadata) (file_size : Int) :
    DB × Except AppError UploadResponse :=
  match staged with
  | true =>
      let db0 := { db with blobs := db.blobs ++ [file_id] }
      match upload_file_result db0 uuid link_id link_password file_id fresh_link
          metadata file_size with
      | .ok (db1, resp) => (db1, .ok resp)
      | .error e => ({ db0 with blobs := cleanup db0.blobs (some file_id) }, .error e)
  | false =>
      match upload_file_result db uuid link_id link_password file_id fresh_link
          metadata 0 with
      | .ok (db1, resp) => (db1, .ok resp)
      | .error e => ({ db with blobs := cleanup db.blobs none }, .error e)

/-- `upload::upload_file` (upload.rs:141-239), after multipart parsing: the
`file` part is staged exactly when it was present and the previously parsed
metadata does not mark a directory. -/
def upload_file (db : DB) (uuid link_id : Option Nat)
    (link_password : Option String) (file_id fresh_link : Nat)
    (metadata : Option UploadMetadata) (file_part : Bool) (file_size : Int) :
    DB × Except AppError UploadResponse :=
  upload_file_with db
    (file_part && !(match metadata with
      | some m => m.is_directory
      | none => false))
    uuid link_id link_password file_id fresh_link metadata file_size

/-! ## Chunked upload -/

/-- `upload::TransactionRequest` (upload.rs:791-806). -/
structure TransactionRequest where
  upload : UploadMetadata
  chunk_size : Int
  total_chunks : Int
  file_size : Int
deriving Repr, DecidableEq

/-- `TransactionRequest::process_upload_transaction` (upload.rs:1428-1500):
like the single-shot version but inserting an `upload_transaction` row and
creating no share link.  The migrations (not under `src/`) give
`current_chunks` its initial value; per spec §3 it counts uploaded chunks, so
it starts at 0. -/
def TransactionRequest.process_upload_transaction (t : TransactionRequest)
    (db : DB) (uuid link_id : Option Nat) (link_password : Option String)
    (transaction_id : Nat) : Except AppError (DB × Nat) := do
  let owner_id ← get_owner_from_parent db t.upload.parent_id t.upload.key_nonce
    uuid link_password link_id
  match owner_id with
  | some oid => check_space db t.upload oid t.file_size
  | none => pure ()
  let row : UploadTransactionRow := {
    id := transaction_id, owner_id := owner_id, uploader_id := uuid,
    parent_id := t.upload.parent_id, encrypted_key := t.upload.encrypted_key,
    encrypted_name := t.upload.encrypted_file_name,
    mime := t.upload.encrypted_mime_type, key_nonce := t.upload.key_nonce,
    mime_type_nonce := t.upload.mime_type_nonce,
    name_nonce := t.upload.name_nonce, expected_size := t.file_size,
    chunk_size := t.chunk_size, total_chunks := t.total_chunks,
    current_chunks := 0 }
  Except.ok ({ db with upload_transactions := db.upload_transactions ++ [row] },
    transaction_id)

/-- `upload::start_chunked_upload` (upload.rs:893-969). -/
def start_chunked_upload (db : DB) (uuid link_id : Option Nat)
    (link_password : Option String) (t : TransactionRequest)
    (transaction_id : Nat) : Except AppError (DB × Nat) := do
  if !(MIN_CHUNK_SIZE ≤ t.file_size && t.file_size ≤ MAX_FILE_SIZE) then
    Except.error (AppError.userError 403
      "The provided file is too small to be uploaded in chunks")
  else pure ()
  if !(MIN_CHUNK_SIZE ≤ t.chunk_size) then
    Except.error (AppError.userError 403
      "The provided chunk size is too small, please use a larger chunk size or upload your file using the regular upload endpoint")
  else pure ()
  if t.total_chunks ≤ 0 then
    Except.error (AppError.userError 403
      "There must be at least one chunk to process for uploading")
  else pure ()
  if t.upload.is_directory then
    Except.error (AppError.userError 403
      "Uploading directories in chunks is not supported")
  else pure ()
  if t.file_size ≤ t.chunk_size * (t.total_chunks - 1)
      || t.file_size > t.chunk_size * t.total_chunks then
    Except.error (AppError.userError 403
      "File size does not match provided chunk constraints")
  else pure ()
  if t.upload.file_nonce.isSome then
    Except.error (AppError.userError 403
      "Chunked uploads are identified by their lack of file nonces. Please include the file nonce at the start of each encrypted block")
  else pure ()
  check_upload_metadata t.upload uuid.isSome
  let (db1, tid) ← t.process_upload_transaction db uuid link_id link_password transaction_id
  Except.ok ({ db1 with tx_dirs := db1.tx_dirs ++ [tid] }, tid)

/-- `upload::finalize_chunked_upload` (upload.rs:1153-1300).  `file_id`
stands for the fresh `Uuid::now_v7()`.  The output blob is created before the
transaction row is read; the two early `return Err` paths before the retried
transaction leave that blob behind (they run outside the block whose error
arm calls `cleanup`), later failures delete it.  The retried transaction
commits before chunk assembly, so assembly errors keep the committed rows. -/
def finalize_chunked_upload (db : DB) (uuid link_id : Option Nat)
    (link_password : Option String) (transaction_id : Nat)
    (file_id fresh_link : Nat) : DB × Except AppError UploadResponse :=
  if db.blobs.contains file_id then
    (db, .error .storageError)
  else
    let db0 := { db with blobs := db.blobs ++ [file_id] }
    match db0.upload_transactions.find? (fun t => t.id == transaction_id) with
    | none => (db0, .error (.userError 400 "The provided tranction id is not valid"))
    | some metadata =>
        if metadata.total_chunks != metadata.current_chunks then
          (db0, .error (.userError 400 "The upload transaction is missing chunks"))
        else
          let txResult : Except AppError (DB × UploadResponse) := do
            let db1 := { db0 with upload_transactions :=
              db0.upload_transactions.filter (fun t => !(t.id == transaction_id)) }
            let _ ← get_owner_from_parent db1 metadata.parent_id metadata.key_nonce
              uuid link_password link_id
            let row : FileRow := {
              id := file_id, owner_id := metadata.owner_id, uploader_id := uuid,
              parent_id := metadata.parent_id,
              encrypted_key := metadata.encrypted_key,
              encrypted_name := metadata.encrypted_name, mime := metadata.mime,
              file_nonce := none, key_nonce := metadata.key_nonce,
              mime_type_nonce := metadata.mime_type_nonce,
              name_nonce := metadata.name_nonce, is_directory := false,
              size := metadata.expected_size }
            let db2 := { db1 with files := db1.files ++ [row] }
            if metadata.owner_id.isNone && metadata.parent_id.isNone then
              let (db3, link) ← share_with_link db2 fresh_link file_id uuid
                (60 * 60 * 24) none false
              let resp : UploadResponse :=
                { id := file_id, size := metadata.expected_size,
                  is_directory := false, link := some link }
              return (db3, resp)
            else
              let resp : UploadResponse :=
                { id := file_id, size := metadata.expected_size,
                  is_directory := false, link := none }
              return (db2, resp)
          match txResult with
          | .error e => ({ db0 with blobs := cleanup db0.blobs (some file_id) }, .error e)
          | .ok (db3, resp) =>
              if (List.range metadata.total_chunks.toNat).all (fun c =>
                  db3.tx_chunks.contains (transaction_id, (c : Int))) then
                ({ db3 with
                    tx_dirs := db3.tx_dirs.erase transaction_id,
                    tx_chunks := db3.tx_chunks.filter (fun p => !(p.1 == transaction_id)) },
                  .ok resp)
              else
                ({ db3 with blobs := cleanup db3.blobs (some file_id) },
                  .error .storageError)

/-- The three return sites of `upload_chunk` after a chunk has been accepted:
204 without invoking finalize (upload.rs:1115), 204 because the invoked
finalize failed (upload.rs:1122), or the finalize response (upload.rs:1124). -/
inductive ChunkOutcome where
  | noContent
  | finalizeFailed
  | finalized (resp : UploadResponse)
deriving Repr, DecidableEq

/-- `upload::upload_chunk` (upload.rs:1005-1135).  `body_len` is the total
length of the streamed request body; the running `chunk_size > expected`
check trips exactly when the total exceeds the limit.  On an error after the
chunk file was created, `cleanup` removes it again. -/
def upload_chunk (db : DB) (uuid link_id : Option Nat)
    (link_password : Option String) (transaction_id : Nat) (chunk_id : Int)
    (auto_finalize : Bool) (body_len : Int) (file_id fresh_link : Nat) :
    DB × Except AppError ChunkOutcome :=
  if ! db.tx_dirs.contains transaction_id then
    (db, .error (.userError 400 "The provided tranction id is not valid"))
  else
    match db.upload_transactions.find? (fun t => t.id == transaction_id) with
    | none => (db, .error (.userError 400 "The provided tranction id is not valid"))
    | some metadata =>
        match get_owner_from_parent db metadata.parent_id metadata.key_nonce
            uuid link_password link_id with
        | .error e => (db, .error e)
        | .ok _ =>
            if chunk_id < 0 || metadata.total_chunks ≤ chunk_id then
              (db, .error (.userError 400 "The provided chunk id is not valid"))
            else if db.tx_chunks.contains (transaction_id, chunk_id) then
              (db, .error (.userError 400 "This chunk has already been uploaded"))
            else if body_len > metadata.chunk_size then
              -- the chunk file created by `File::create_new` is removed again
              -- by the error-arm `cleanup`, so the state is unchanged
              (db, .error (.userError 400
                "The provided chunk is larger than the chunk size for the transaction"))
            else if chunk_id == metadata.total_chunks - 1
                && (metadata.total_chunks - 1) * metadata.chunk_size + body_len
                    != metadata.expected_size then
              (db, .error (.userError 400
                "The total size of the uploaded chunks does not match the expected file size"))
            else if chunk_id != metadata.total_chunks - 1
                && body_len != metadata.chunk_size then
              (db, .error (.userError 400
                "Only the last chunk of a transaction is allowed to be smaller than the chunk size"))
            else
              let db0 := { db with tx_chunks := db.tx_chunks ++ [(transaction_id, chunk_id)] }
              -- UPDATE … SET current_chunks = current_chunks + 1 … RETURNING current_chunks
              let current_chunks := metadata.current_chunks + 1
              let db1 := { db0 with upload_transactions :=
                db0.upload_transactions.map (fun t =>
                  if t.id == transaction_id then
                    { t with current_chunks := t.current_chunks + 1 }
                  else t) }
              if current_chunks != metadata.total_chunks - 1 || !auto_finalize then
                (db1, .ok .noContent)
              else
                match finalize_chunked_upload db1 uuid link_id link_password
                    transaction_id file_id fresh_link with
                | (db2, .error _) => (db2, .ok .finalizeFailed)
                | (db2, .ok resp) => (db2, .ok (.finalized resp))

/-! ## Session layer (`auth.rs`) and janitor (`utils.rs`) -/

structure AuthUser where
  id : Nat
  username : String
  email : Option String
deriving Repr, DecidableEq

/-- Modelled from the spec: the `session.expires_at` column used by auth.rs
is defined in the migrations, which are not under `src/`.  Spec §3 (Session)
defines the lifetime as ending when `last_used_at + idle_duration < now`, and
the janitor (utils.rs:136) deletes exactly the sessions with
`last_used_at + idle_duration < now`, so `expires_at` is the derived value
`last_used_at + idle_duration`. -/
def session_expires_at (s : SessionRow) : Int := s.last_used_at + s.idle_duration

/-- `SessionAuth::from_request_parts` (auth.rs:29-65): parse the `session`
cookie, then run the single SELECT joining `user` and `session` on
`session.id = ? AND expires_at > CURRENT_TIMESTAMP`.  The extractor issues no
UPDATE statement, so the state is returned unchanged. -/
def session_auth (db : DB) (cookie_session : Option Nat) :
    Except AppError AuthUser × DB :=
  (match cookie_session with
   | none => .error (.authError "No session cookie provided")
   | some sid =>
       match db.sessions.find? (fun s =>
           s.id == sid && decide (session_expires_at s > db.now)) with
       | none => .error (.authError "Invalid session")
       | some s =>
           match db.user? s.user_id with
           | none => .error (.authError "Invalid session")
           | some u => .ok { id := u.id, username := u.username, email := u.email },
   db)

/-- A share link satisfying the janitor subquery
`SELECT file_id FROM share_link WHERE DATETIME(expires_at) >= CURRENT_TIMESTAMP`:
in SQL a NULL `expires_at` makes the comparison NULL, so never-expiring links
do not appear in the subquery. -/
def link_protects (db : DB) (l : ShareLinkRow) : Bool :=
  match l.expires_at with
  | some e => decide (db.now ≤ e)
  | none => false

/-- `utils::clean_up` (utils.rs:133-166): one janitor tick.  Expired sessions
and expired links are deleted first; then every anonymous file whose id is
not in the active-link subquery is deleted and its blob removed. -/
def clean_up (db : DB) : DB :=
  let db1 := { db with sessions := db.sessions.filter (fun s =>
    !decide (s.last_used_at + s.idle_duration < db.now)) }
  let db2 := { db1 with share_links := db1.share_links.filter (fun l =>
    !(match l.expires_at with | some e => decide (e < db1.now) | none => false)) }
  let deleted := (db2.files.filter (fun f =>
    f.owner_id == none
    && !(db2.share_links.any (fun l => l.file_id == f.id && link_protects db2 l)))).map
    (fun f => f.id)
  { db2 with
    files := db2.files.filter (fun f => ! deleted.contains f.id),
    blobs := db2.blobs.filter (fun b => ! deleted.contains b) }

/-! ## User search (`users.rs`) -/

/-- users.rs:37-38 -/
def MIN_USERNAME_LENGTH : Nat := 3
def MAX_USERNAME_LENGTH : Nat := 20

inductive SortOrder where
  | BestMatch
  | Alphabetical
  | Shortest
deriving Repr, DecidableEq

/-- `users::search_users` (users.rs:943-986).  Rust's `sort_by_cached_key` /
`sort_by` / `sort_by_key` are stable sorts; a stable sort's output is
uniquely determined by the input order and the total preorder, so the
(equally stable) `List.insertionSort` is an exact model.  `query.len()` is
the UTF-8 byte length.  Note the page is `skip(offset * limit).take(10)`:
the `10` is hardcoded. -/
def search_users (db : DB) (query : String) (sort : SortOrder)
    (limit offset : Nat) : Except AppError (List UserRow) :=
  if query.utf8ByteSize < MIN_USERNAME_LENGTH then
    .error (.userError 400 "Query must be at least 3 characters")
  else if query.utf8ByteSize > MAX_USERNAME_LENGTH then
    .error (.userError 400 "Query must be at most 20 characters")
  else
    let all_users := db.users.insertionSort (fun u v =>
      levenshtien query u.username ≤ levenshtien query v.username)
    let best_matches := (all_users.drop (offset * limit)).take 10
    .ok (match sort with
      | .Alphabetical => best_matches.insertionSort (fun u v => u.username ≤ v.username)
      | .Shortest => best_matches.insertionSort (fun u v =>
          u.username.utf8ByteSize ≤ v.username.utf8ByteSize)
      | .BestMatch => best_matches)

/-! ## Concrete fixtures

Base64 strings of the two admissible key lengths and a 12-byte nonce, and
small database states exercising the handlers. -/

/-- 64 alphabet characters: decodes to 48 bytes (child key length). -/
def key48 : String := String.mk (List.replicate 64 'A')

/-- 683 alphabet characters plus one pad: decodes to 512 bytes (root key
length). -/
def key512 : String := String.mk (List.replicate 683 'A' ++ ['='])

/-- 16 alphabet characters: decodes to 12 bytes. -/
def nonce12 : String := String.mk (List.replicate 16 'A')

def alice : UserRow :=
  { id := 1, username := "alice", email := none,
    total_space := 1000000, used_space := 0 }

def bob : UserRow :=
  { id := 2, username := "bob", email := none,
    total_space := 1000000, used_space := 0 }

/-- A directory row owned by alice. -/
def dirRow (i : Nat) (parent : Option Nat) : FileRow :=
  { id := i, parent_id := parent, owner_id := some 1, uploader_id := some 1,
    is_directory := true, encrypted_name := "n",
    encrypted_key := if parent.isSome then key48 else key512,
    mime := none, file_nonce := none,
    key_nonce := if parent.isSome then some nonce12 else none,
    name_nonce := nonce12, mime_type_nonce := none, size := 0 }

def emptyDB : DB :=
  { now := 0, users := [], files := [], share_users := [], share_links := [],
    sessions := [], upload_transactions := [], blobs := [], tx_dirs := [],
    tx_chunks := [] }

/-! ## C2 — move cycle check -/

/-- Alice owns the chain `1 → 2 → 3` of directories (`2`'s parent is `1`,
`3`'s parent is `2`). -/
def dbC2 : DB :=
  { emptyDB with
    users := [alice],
    files := [dirRow 1 none, dirRow 2 (some 1), dirRow 3 (some 2)] }

/-- C2: the claim says a Move is refused when the new parent is a descendant
of the target, so that committed moves preserve acyclicity.  The code detects
the cycle only through `ancestors(new_parent) EXCEPT descendants(target)`
being empty of permitted rows; when the target has a parent, that parent
survives the EXCEPT and authorizes the move.  Evaluating `update_file` at the
failing input: alice moves directory 2 under its own child 3 — the move is
committed and produces the parent cycle 2 ⇄ 3, contradicting both the claim
and the source comment ("ensure that the user is not attempting to move a
parent directory into one of its children, as that could cause a cycle"). -/
theorem c2_move_cycle :
    (dbC2.descendants 2).contains 3 = true
    ∧ (3 : Nat) ≠ 2
    ∧ (update_file dbC2 (some 1) none none 2 (.Move (some 3) key48 (some nonce12))).isOk
        = true
    ∧ ((update_file dbC2 (some 1) none none 2
          (.Move (some 3) key48 (some nonce12))).toOption.bind
        (fun db' => (db'.file? 2).map FileRow.parent_id)) = some (some 3)
    ∧ ((update_file dbC2 (some 1) none none 2
          (.Move (some 3) key48 (some nonce12))).toOption.bind
        (fun db' => (db'.file? 3).map FileRow.parent_id)) = some (some 2) := by
  decide

/-! ## C3 — auto-finalize off by one -/

def txRow100 : UploadTransactionRow :=
  { id := 100, owner_id := some 1, uploader_id := some 1, parent_id := none,
    encrypted_key := key512, encrypted_name := "n", mime := none,
    key_nonce := none, mime_type_nonce := none, name_nonce := nonce12,
    expected_size := 524289, chunk_size := 524288, total_chunks := 2,
    current_chunks := 1 }

/-- Chunk 0 of transaction 100 is uploaded (`current_chunks = 1` of 2). -/
def dbC3 : DB :=
  { emptyDB with
    users := [alice], upload_transactions := [txRow100],
    tx_dirs := [100], tx_chunks := [(100, 0)] }

/-- The same transaction before any chunk was uploaded. -/
def dbC3b : DB :=
  { emptyDB with
    users := [alice],
    upload_transactions := [{ txRow100 with current_chunks := 0 }],
    tx_dirs := [100], tx_chunks := [] }

/-- C3: the claim (and the spec) say that with `auto_finalize` set,
finalization is invoked when the post-increment `current_chunks` equals
`total_chunks`.  The code compares the post-increment counter returned by
`UPDATE … RETURNING` against `total_chunks - 1` (upload.rs:1114), so:
uploading the *last* chunk (post-increment 2 = total) returns `NoContent`
without invoking finalize, leaving the transaction row and no file row;
and uploading the *first* chunk (post-increment 1 = total − 1) invokes
finalize, which necessarily fails its `current_chunks = total_chunks`
completeness check. -/
theorem c3_auto_finalize :
    (upload_chunk dbC3 (some 1) none none 100 1 true 1 50 60).2 = .ok .noContent
    ∧ ((upload_chunk dbC3 (some 1) none none 100 1 true 1 50 60).1.upload_transactions.find?
        (fun t => t.id == 100)).map UploadTransactionRow.current_chunks = some 2
    ∧ (upload_chunk dbC3 (some 1) none none 100 1 true 1 50 60).1.files = []
    ∧ (upload_chunk dbC3b (some 1) none none 100 0 true 524288 50 60).2
        = .ok .finalizeFailed := by
  decide

/-! ## C4 — session validation and the missing `last_used_at` bump -/

def dbC4 : DB :=
  { emptyDB with
    now := 500, users := [alice],
    sessions := [{ id := 7, user_id := 1, number := 1, last_used_at := 0,
                   idle_duration := 1000 }] }

/-- C4: the claim says every successful session authentication atomically
advances `last_used_at` to the current time.  `from_request_parts` issues a
single SELECT and no UPDATE: evaluating the embedded extractor on a live
session authenticates the caller and returns the state unchanged, with
`last_used_at` still at its old value `0 ≠ now`.  (Validity itself is the
modelled `expires_at > now`, i.e. `last_used_at + idle_duration > now`.) -/
theorem c4_no_bump :
    (session_auth dbC4 (some 7)).1 = .ok { id := 1, username := "alice", email := none }
    ∧ (session_auth dbC4 (some 7)).2 = dbC4
    ∧ ((session_auth dbC4 (some 7)).2.sessions.find? (fun s => s.id == 7)).map
        SessionRow.last_used_at = some 0
    ∧ ((0 : Int) = dbC4.now) = False := by
  refine ⟨by decide, rfl, by decide, by decide⟩

/-! ## C1 — the child exception of delete/update -/

/-- Every id listed by the `ancestors` CTE names an existing file row. -/
theorem mem_ancestorsFrom_file_isSome (db : DB) :
    ∀ (fuel : Nat) (i a : Nat), a ∈ ancestorsFrom db fuel i →
      (db.file? a).isSome = true := by
  intro fuel
  induction fuel with
  | zero => intro i a ha; simp [ancestorsFrom] at ha
  | succ fuel ih =>
      intro i a ha
      unfold ancestorsFrom at ha
      cases hf : db.file? i with
      | none => rw [hf] at ha; simp at ha
      | some f =>
          rw [hf] at ha
          rcases List.mem_cons.mp ha with h | h
          · subst h; simp [hf]
          · cases hp : f.parent_id with
            | none => rw [hp] at h; simp at h
            | some p => rw [hp] at h; exact ih p a h

/-- Alice owns directory 10 with child directory 11; bob holds an edit
user-share created directly on 10 (the share root). -/
def dbC1 : DB :=
  { emptyDB with
    users := [alice, bob],
    files := [dirRow 10 none, dirRow 11 (some 10)],
    share_users := [{ file_id := 10, user_id := 2, encrypted_key := "k0",
                      edit_permission := true }] }

/-- C1 counterexample: the claim says DELETE and PUT on the share root are
both refused with a 404 "File not found" error.  The PUT refusal carries the
message "Unable to find file to update" instead (upload.rs:619): bob, holding
an edit share created directly on 10, renames 10. -/
theorem c1_counterexample :
    update_file dbC1 (some 2) none none 10 (.Rename "m" nonce12)
      = .error (.userError 404 "Unable to find file to update")
    ∧ AppError.userError 404 "Unable to find file to update"
        ≠ AppError.userError 404 "File not found" := by
  decide

/-- C1 (amended): for every caller whose only permission edges on the
ancestor chain of `F` are edit user-shares or edit link-shares created
directly on `F` itself, DELETE and PUT on `F` are refused with status 404
(delete says "File not found", update says "Unable to find file to update"),
while the same share edge lets the caller pass the mutation gate of any
strict descendant of the share root (delete succeeds, and rename succeeds
for any valid nonce); a caller owning any file of the ancestor chain is
never subject to the exception. -/
theorem c1_child_exception (db : DB) (caller : Nat) (link_id : Option Nat)
    (link_password : Option String) (F : Nat) :
    (((db.ancestors F).all (fun a =>
          !(match db.file? a with
            | some f => ownerMatches f (some caller)
            | none => false))) = true →
      ((db.ancestors F).all (fun a =>
          match userShareRow? db (some caller) a with
          | some su => !su.edit_permission || a == F
          | none => true)) = true →
      ((db.ancestors F).all (fun a =>
          match linkShareRow? db link_id link_password a with
          | some sl => !sl.edit_permission || a == F
          | none => true)) = true →
      delete_file db (some caller) link_id link_password F
          = .error (.userError 404 "File not found")
        ∧ ∀ body, update_file db (some caller) link_id link_password F body
            = .error (.userError 404 "Unable to find file to update"))
    ∧ (∀ D, F ∈ db.ancestors D → D ≠ F →
        ((match userShareRow? db (some caller) F with
          | some su => su.edit_permission
          | none => false)
          || (match linkShareRow? db link_id link_password F with
              | some sl => sl.edit_permission
              | none => false)) = true →
        (delete_file db (some caller) link_id link_password D).isOk = true
          ∧ ∀ name nonce, check_nonce nonce = true →
              (update_file db (some caller) link_id link_password D
                (.Rename name nonce)).isOk = true)
    ∧ (∀ G, G ∈ db.ancestors F →
        (match db.file? G with
         | some f => ownerMatches f (some caller)
         | none => false) = true →
        (mutate_permission_row db (some caller) link_id link_password F).isSome
          = true) := by
  refine ⟨?_, ?_, ?_⟩
  · intro h1 h2 h3
    have hrow : mutate_permission_row db (some caller) link_id link_password F
        = none := by
      unfold mutate_permission_row
      rw [List.findSome?_eq_none]
      intro a ha
      cases hf : db.file? a with
      | none => simp
      | some f =>
          have hown := List.all_eq_true.mp h1 a ha
          rw [hf] at hown
          have hsu := List.all_eq_true.mp h2 a ha
          have hsl := List.all_eq_true.mp h3 a ha
          simp only [hf]
          have c1 : ownerMatches f (some caller) = false := by
            simpa using hown
          have c2 : (match userShareRow? db (some caller) a with
              | some su => su.edit_permission && a != F
              | none => false) = false := by
            cases hr : userShareRow? db (some caller) a with
            | none => simp
            | some su =>
                simp only [hr] at hsu
                cases he : su.edit_permission with
                | false => simp [he]
                | true =>
                    rw [he] at hsu
                    simp only [Bool.not_true, Bool.false_or] at hsu
                    simpa [he] using hsu
          have c3 : (match linkShareRow? db link_id link_password a with
              | some sl => sl.edit_permission && a != F
              | none => false) = false := by
            cases hr : linkShareRow? db link_id link_password a with
            | none => simp
            | some sl =>
                simp only [hr] at hsl
                cases he : sl.edit_permission with
                | false => simp [he]
                | true =>
                    rw [he] at hsl
                    simp only [Bool.not_true, Bool.false_or] at hsl
                    simpa [he] using hsl
          rw [c1, c2, c3]
          simp
    constructor
    · unfold delete_file
      rw [hrow]
      rfl
    · intro body
      unfold update_file
      rw [hrow]
  · intro D hF hne hedge
    have hf : (db.file? F).isSome = true :=
      mem_ancestorsFrom_file_isSome db _ D F hF
    rcases Option.isSome_iff_exists.mp hf with ⟨fF, hfF⟩
    have hcond : (ownerMatches fF (some caller)
        || (match userShareRow? db (some caller) F with
            | some su => su.edit_permission && F != D
            | none => false)
        || (match linkShareRow? db link_id link_password F with
            | some sl => sl.edit_permission && F != D
            | none => false)) = true := by
      have hFD : (F != D) = true := by
        simp [bne_iff_ne]
        exact fun h => hne h.symm
      rcases Bool.or_eq_true_iff.mp hedge with h | h
      · cases hr : userShareRow? db (some caller) F with
        | none => rw [hr] at h; simp at h
        | some su =>
            simp only [hr] at h
            simp [hr, h, hFD]
      · cases hr : linkShareRow? db link_id link_password F with
        | none => rw [hr] at h; simp at h
        | some sl =>
            simp only [hr] at h
            simp [hr, h, hFD]
    have hsome : (mutate_permission_row db (some caller) link_id link_password D).isSome
        = true := by
      rw [Option.isSome_iff_ne_none]
      intro hnone
      unfold mutate_permission_row at hnone
      have := List.findSome?_eq_none.mp hnone F hF
      simp only [hfF] at this
      rw [hcond] at this
      simp at this
    rcases Option.isSome_iff_exists.mp hsome with ⟨v, hv⟩
    constructor
    · unfold delete_file
      rw [hv]
      rfl
    · intro name nonce hnonce
      unfold update_file
      rw [hv]
      simp [hnonce, Except.isOk, Except.toBool]
  · intro G hG hGown
    rw [Option.isSome_iff_ne_none]
    intro hnone
    unfold mutate_permission_row at hnone
    have := List.findSome?_eq_none.mp hnone G hG
    cases hf : db.file? G with
    | none => rw [hf] at hGown; simp at hGown
    | some f =>
        simp only [hf] at this hGown
        rw [hGown] at this
        simp at this

/-- C1 witness: the amended theorem applied to `dbC1` — bob (caller 2) is
blocked on the share root 10 for both endpoints, succeeds on the child 11,
and alice (caller 1) as owner passes the gate on 10. -/
theorem c1_child_exception_witness :
    (delete_file dbC1 (some 2) none none 10
        = .error (.userError 404 "File not found")
      ∧ update_file dbC1 (some 2) none none 10 (.Rename "m" nonce12)
        = .error (.userError 404 "Unable to find file to update"))
    ∧ ((delete_file dbC1 (some 2) none none 11).isOk = true
      ∧ (update_file dbC1 (some 2) none none 11 (.Rename "m" nonce12)).isOk = true)
    ∧ (mutate_permission_row dbC1 (some 1) none none 10).isSome = true := by
  have h := c1_child_exception dbC1 2 none none 10
  have h11 := c1_child_exception dbC1 2 none none 11
  refine ⟨?_, ?_, ?_⟩
  · have := h.1 (by decide) (by decide) (by decide)
    exact ⟨this.1, this.2 _⟩
  · have := (c1_child_exception dbC1 2 none none 10).2.1 11 (by decide) (by decide)
      (by decide)
    exact ⟨this.1, this.2 "m" nonce12 (by decide)⟩
  · exact (c1_child_exception dbC1 1 none none 10).2.2 10 (by decide) (by decide)

/-! ## C5 / C6 — quota admission and rollback of the single-shot upload -/

/-- Any error of `upload_file` leaves the database rows untouched (the
transaction rolled back) and the blob store as it was (the staged blob, if
any, deleted again by `cleanup`). -/
theorem upload_file_error_state (db : DB) (uuid link_id : Option Nat)
    (link_password : Option String) (fid flink : Nat)
    (metadata : Option UploadMetadata) (file_part : Bool) (fsize : Int)
    (hfresh : fid ∉ db.blobs) (e : AppError)
    (herr : (upload_file db uuid link_id link_password fid flink metadata
        file_part fsize).2 = .error e) :
    (upload_file db uuid link_id link_password fid flink metadata file_part
        fsize).1.files = db.files
    ∧ (upload_file db uuid link_id link_password fid flink metadata file_part
        fsize).1.share_links = db.share_links
    ∧ (upload_file db uuid link_id link_password fid flink metadata file_part
        fsize).1.upload_transactions = db.upload_transactions
    ∧ (upload_file db uuid link_id link_password fid flink metadata file_part
        fsize).1.blobs = db.blobs := by
  unfold upload_file at herr ⊢
  revert herr
  generalize (file_part && !(match metadata with
    | some m => m.is_directory
    | none => false)) = staged
  intro herr
  cases staged with
  | true =>
      simp only [upload_file_with] at herr ⊢
      cases hres : upload_file_result { db with blobs := db.blobs ++ [fid] } uuid
          link_id link_password fid flink metadata fsize with
      | ok v =>
          rw [hres] at herr
          rcases v with ⟨db1, resp⟩
          simp at herr
      | error e0 =>
          rw [hres] at herr
          simp only [hres]
          refine ⟨trivial, trivial, trivial, ?_⟩
          show cleanup (db.blobs ++ [fid]) (some fid) = db.blobs
          have hc : (db.blobs ++ [fid]).contains fid = true := by simp
          simp only [cleanup, fs_remove_file, hc, if_true]
          rw [List.erase_append_right _ hfresh]
          simp
  | false =>
      simp only [upload_file_with] at herr ⊢
      cases hres : upload_file_result db uuid link_id link_password fid flink
          metadata 0 with
      | ok v =>
          rw [hres] at herr
          rcases v with ⟨db1, resp⟩
          simp at herr
      | error e0 =>
          rw [hres] at herr
          simp only [hres]
          exact ⟨trivial, trivial, trivial, rfl⟩

/-- C6: if any error occurs in `upload_file` after the multipart parts are
parsed, the staged blob `uploads/{file_id}` is removed before the error is
returned (final blob store equals the original), no file row, share link or
transaction row is committed, and a not-found during that deletion is
swallowed by `cleanup` rather than surfaced (deleting an absent blob is a
no-op). -/
theorem c6_rollback (db : DB) (uuid link_id : Option Nat)
    (link_password : Option String) (fid flink : Nat)
    (metadata : Option UploadMetadata) (file_part : Bool) (fsize : Int)
    (hfresh : fid ∉ db.blobs) (e : AppError)
    (herr : (upload_file db uuid link_id link_password fid flink metadata
        file_part fsize).2 = .error e) :
    (upload_file db uuid link_id link_password fid flink metadata file_part
        fsize).1.files = db.files
    ∧ (upload_file db uuid link_id link_password fid flink metadata file_part
        fsize).1.share_links = db.share_links
    ∧ (upload_file db uuid link_id link_password fid flink metadata file_part
        fsize).1.blobs = db.blobs
    ∧ fs_remove_file db.blobs fid = .error .notFound
    ∧ cleanup db.blobs (some fid) = db.blobs := by
  have h := upload_file_error_state db uuid link_id link_password fid flink
    metadata file_part fsize hfresh e herr
  have hc : db.blobs.contains fid = false := by simp [hfresh]
  refine ⟨h.1, h.2.1, h.2.2.2, ?_, ?_⟩
  · simp [fs_remove_file, hc, hfresh]
  · simp [cleanup, fs_remove_file, hc, hfresh]

/-- C6 witness: a missing-metadata request with a staged 5-byte blob errors
and leaves the empty state unchanged. -/
theorem c6_rollback_witness :
    ((upload_file emptyDB (some 1) none none 42 43 none true 5).1.files = []
      ∧ (upload_file emptyDB (some 1) none none 42 43 none true 5).1.blobs = []) := by
  have herr : (upload_file emptyDB (some 1) none none 42 43 none true 5).2
      = .error (.userError 400 "Missing file metadata") := by decide
  have h := c6_rollback emptyDB (some 1) none none 42 43 none true 5
    (by decide) _ herr
  exact ⟨h.1, h.2.2.1⟩

theorem except_bind_ok {ε α β : Type} (x : α) (f : α → Except ε β) :
    (Except.ok x >>= f : Except ε β) = f x := rfl

theorem except_bind_error {ε α β : Type} (err : ε) (f : α → Except ε β) :
    (Except.error err >>= f : Except ε β) = Except.error err := rfl

theorem except_bind_pure {ε α β : Type} (x : α) (f : α → Except ε β) :
    ((pure x : Except ε α) >>= f) = f x := rfl

/-- `check_upload_metadata` always fails when `is_directory` agrees with
`file_nonce.isSome`: its final gate (upload.rs:865-871) demands a file nonce
exactly for non-directories. -/
theorem check_upload_metadata_nonce_flag (m : UploadMetadata) (auth : Bool)
    (hflag : (m.is_directory == m.file_nonce.isSome) = true) (u : Unit) :
    check_upload_metadata m auth ≠ Except.ok u := by
  intro hok
  unfold check_upload_metadata at hok
  rw [if_pos hflag] at hok
  repeat'
    first
    | exact Except.noConfusion hok
    | split at hok
    | simp only [except_bind_error, except_bind_ok, except_bind_pure] at hok

/-- `start_chunked_upload` never succeeds: its own pre-flight demands that a
chunked upload carry no file nonce (upload.rs:941-948) and not be a directory
(upload.rs:928-933), while `check_upload_metadata` — run right afterwards —
rejects exactly the metadata whose `is_directory` equals
`file_nonce.is_some()`, so every request is refused before any transaction
row is created. -/
theorem start_chunked_upload_never_ok (db : DB) (uuid link_id : Option Nat)
    (link_password : Option String) (t : TransactionRequest)
    (transaction_id : Nat) (r : DB × Nat) :
    start_chunked_upload db uuid link_id link_password t transaction_id
      ≠ Except.ok r := by
  intro hok
  unfold start_chunked_upload at hok
  cases hn : t.upload.file_nonce.isSome with
  | true =>
      rw [if_pos hn] at hok
      repeat'
        first
        | exact Except.noConfusion hok
        | split at hok
        | simp only [except_bind_error, except_bind_ok, except_bind_pure] at hok
  | false =>
      cases hd : t.upload.is_directory with
      | true =>
          rw [if_pos hd] at hok
          repeat'
            first
            | exact Except.noConfusion hok
            | split at hok
            | simp only [except_bind_error, except_bind_ok, except_bind_pure] at hok
      | false =>
          have hflag : (t.upload.is_directory == t.upload.file_nonce.isSome) = true := by
            rw [hd, hn]
            rfl
          cases hcm : check_upload_metadata t.upload uuid.isSome with
          | error e =>
              rw [hcm] at hok
              repeat'
                first
                | exact Except.noConfusion hok
                | split at hok
                | simp only [except_bind_error, except_bind_ok, except_bind_pure] at hok
          | ok u =>
              exact check_upload_metadata_nonce_flag t.upload uuid.isSome hflag u hcm

/-- A directory-creation request at root: 24-char encrypted name, root-length
key, 16-char name nonce, every optional field absent. -/
def metaDir : UploadMetadata :=
  { encrypted_file_name := String.mk (List.replicate 24 'B'),
    encrypted_mime_type := none, encrypted_key := key512, file_nonce := none,
    key_nonce := none, name_nonce := nonce12, mime_type_nonce := none,
    is_directory := true, parent_id := none }

/-- Alice with exactly the space for the stored strings of `metaDir`
(16 + 684 + 24 = 724 bytes) and a 0-byte payload. -/
def dbC5 : DB :=
  { emptyDB with users := [{ alice with total_space := 724 }] }

set_option maxRecDepth 100000 in
/-- C5 counterexample: the claim admits an upload whenever
`used_space + (sum of encoded string lengths actually stored) + file_size ≤ total_space`.
For `metaDir` the stored strings measure 724 bytes and alice has exactly 724
bytes free, yet the upload fails with 402: `check_space` adds `unwrap_or(1)`
one byte for each of the four absent optional fields (upload.rs:337-351). -/
theorem c5_counterexample :
    ((0 : Int) + ((metaDir.name_nonce.utf8ByteSize + metaDir.encrypted_key.utf8ByteSize
        + metaDir.encrypted_file_name.utf8ByteSize : Nat) : Int) + 0 ≤ 724)
    ∧ (upload_file dbC5 (some 1) none none 77 88 (some metaDir) false 0).2
        = .error (.userError 402 "File owner does not have enough free space") := by
  decide

/-- C5 (amended): for an upload admission whose resolved owner is a
registered user, the enforced rule is
`used_space + row_space + file_size ≤ total_space`, where `row_space` counts
the encoded length of each present metadata string and **one byte for each
absent optional field**; a violation fails with 402 PaymentRequired, and a
failing single-shot upload leaves no file row and no blob behind.  The same
rule governs the chunked-upload transaction insert, but the chunked-upload
start endpoint never reaches it: `start_chunked_upload` rejects every
request (its pre-flight demands no file nonce and no directory, which
`check_upload_metadata` then rejects), so no transaction row is ever
created through it. -/
theorem c5_quota (db : DB) (m : UploadMetadata) (uuid link_id : Option Nat)
    (link_password : Option String) (fid flink : Nat) (fsize : Int)
    (oid : Nat) (u : UserRow)
    (hOwner : get_owner_from_parent db m.parent_id m.key_nonce uuid link_password
      link_id = .ok (some oid))
    (hUser : db.user? oid = some u) :
    (m.process_upload_transaction db uuid link_id link_password fid flink fsize
        = .error (.userError 402 "File owner does not have enough free space")
      ↔ u.total_space < u.used_space + (row_space m : Int) + fsize)
    ∧ (∀ e, fid ∉ db.blobs →
        (upload_file db uuid link_id link_password fid flink (some m) true fsize).2
          = .error e →
        (upload_file db uuid link_id link_password fid flink (some m) true fsize).1.files
            = db.files
        ∧ (upload_file db uuid link_id link_password fid flink (some m) true
            fsize).1.blobs = db.blobs)
    ∧ (∀ (cs tc : Int) (tid : Nat),
        TransactionRequest.process_upload_transaction
            { upload := m, chunk_size := cs, total_chunks := tc, file_size := fsize }
            db uuid link_id link_password tid
          = .error (.userError 402 "File owner does not have enough free space")
        ↔ u.total_space < u.used_space + (row_space m : Int) + fsize)
    ∧ (∀ (t : TransactionRequest) (tid : Nat) (res : DB × Nat),
        start_chunked_upload db uuid link_id link_password t tid
          ≠ Except.ok res) := by
  refine ⟨?_, ?_, ?_, ?_⟩
  · unfold UploadMetadata.process_upload_transaction
    rw [hOwner, except_bind_ok]
    show ((check_space db m oid fsize >>= _) = _ ↔ _)
    unfold check_space
    simp only [hUser]
    by_cases hq : u.used_space + (row_space m : Int) + fsize > u.total_space
    · rw [if_pos hq, except_bind_error]
      exact iff_of_true rfl hq
    · rw [if_neg hq, except_bind_ok]
      refine iff_of_false ?_ hq
      intro hcontra
      simp [pure, Except.pure] at hcontra
  · intro e hfresh herr
    have h := upload_file_error_state db uuid link_id link_password fid flink
      (some m) true fsize hfresh e herr
    exact ⟨h.1, h.2.2.2⟩
  · intro cs tc tid
    unfold TransactionRequest.process_upload_transaction
    dsimp only
    rw [hOwner, except_bind_ok]
    show ((check_space db m oid fsize >>= _) = _ ↔ _)
    unfold check_space
    simp only [hUser]
    by_cases hq : u.used_space + (row_space m : Int) + fsize > u.total_space
    · rw [if_pos hq, except_bind_error]
      exact iff_of_true rfl hq
    · rw [if_neg hq, except_bind_ok]
      refine iff_of_false ?_ hq
      intro hcontra
      simp [pure, Except.pure] at hcontra
  · exact fun t tid res =>
      start_chunked_upload_never_ok db uuid link_id link_password t tid res

set_option maxRecDepth 100000 in
/-- C5 witness: the amended quota rule applied to `dbC5` — alice's 724 free
bytes are less than the 728 bytes `check_space` accounts, so both the
single-shot and the chunked transaction insert fail with 402. -/
theorem c5_quota_witness :
    metaDir.process_upload_transaction dbC5 (some 1) none none 77 88 0
      = .error (.userError 402 "File owner does not have enough free space")
    ∧ TransactionRequest.process_upload_transaction
        { upload := metaDir, chunk_size := 1, total_chunks := 1, file_size := 0 }
        dbC5 (some 1) none none 99
      = .error (.userError 402 "File owner does not have enough free space") := by
  have h := c5_quota dbC5 metaDir (some 1) none none 77 88 0 1
    { alice with total_space := 724 } (by decide) (by decide)
  exact ⟨h.1.mpr (by decide), (h.2.2.1 1 1 99).mpr (by decide)⟩

/-! ## C7 — the user-share upsert -/

/-- Alice owns file 10, already shared with bob without edit permission. -/
def dbC7 : DB :=
  { emptyDB with
    users := [alice, bob],
    files := [dirRow 10 none],
    share_users := [{ file_id := 10, user_id := 2, encrypted_key := "k0",
                      edit_permission := false }] }

/-- C7 counterexample: alice re-shares file 10 with bob requesting edit.
The claim says the upserted row afterwards stores the supplied edit flag
(true); the upsert is `ON CONFLICT DO UPDATE SET encrypted_key = ?`
(share.rs:231), so the row keeps `edit_permission = false` while storing the
new key — even though the response echoes `edit = true`. -/
theorem c7_counterexample :
    ((share_with_user dbC7 10 "k1" 1 2 true).toOption.bind
        (fun p => p.1.share_users.find?
          (fun r => r.file_id == 10 && r.user_id == 2))).map
        ShareUserRow.edit_permission = some false
    ∧ ((share_with_user dbC7 10 "k1" 1 2 true).toOption.bind
        (fun p => p.1.share_users.find?
          (fun r => r.file_id == 10 && r.user_id == 2))).map
        ShareUserRow.encrypted_key = some "k1"
    ∧ ((share_with_user dbC7 10 "k1" 1 2 true).toOption.map
        (fun p => p.2.edit_permission)) = some true := by
  decide

/-- `find?` for the `(file_id, user_id)` key commutes with the conflict
update, which only replaces `encrypted_key`. -/
theorem find?_share_update (l : List ShareUserRow) (fidv uidv : Nat) (k : String) :
    ((l.map (fun r => if r.file_id == fidv && r.user_id == uidv then
        { r with encrypted_key := k } else r)).find?
      (fun r => r.file_id == fidv && r.user_id == uidv))
    = (l.find? (fun r => r.file_id == fidv && r.user_id == uidv)).map
        (fun r => { r with encrypted_key := k }) := by
  induction l with
  | nil => rfl
  | cons r l ih =>
      by_cases h : (r.file_id == fidv && r.user_id == uidv) = true
      · simp [List.find?, h]
      · simp only [List.map_cons]
        rw [if_neg h]
        have hb : (r.file_id == fidv && r.user_id == uidv) = false := by
          simpa using h
        simp only [List.find?, hb]
        exact ih

/-- C7 (amended): creating a user share succeeds only for the file's owner,
rejects receiver = owner and an unknown receiver with the claimed errors,
and upserts `(file_id, user_id)` so that the row stores the supplied
rewrapped key — but on conflict the stored `edit_permission` keeps its
previous value (only a fresh row records the supplied flag); the response
echoes the requested flag either way. -/
theorem c7_share_upsert (db : DB) (file_id : Nat) (encrypted_key : String)
    (owner_id receiver_id : Nat) (edit : Bool) :
    (receiver_id = owner_id →
      share_with_user db file_id encrypted_key owner_id receiver_id edit
        = .error (.userError 400 "Cannot share file with owner"))
    ∧ (receiver_id ≠ owner_id → is_owner db owner_id file_id = false →
      share_with_user db file_id encrypted_key owner_id receiver_id edit
        = .error (.userError 404 "File not found"))
    ∧ (receiver_id ≠ owner_id → is_owner db owner_id file_id = true →
        db.user? receiver_id = none →
      share_with_user db file_id encrypted_key owner_id receiver_id edit
        = .error (.userError 400 "Invalid sharee id"))
    ∧ (∀ db' resp,
        share_with_user db file_id encrypted_key owner_id receiver_id edit
          = .ok (db', resp) →
        resp.edit_permission = edit
        ∧ (∀ old, db.share_users.find?
              (fun r => r.file_id == file_id && r.user_id == receiver_id) = some old →
            db'.share_users.find?
                (fun r => r.file_id == file_id && r.user_id == receiver_id)
              = some { old with encrypted_key := encrypted_key })
        ∧ (db.share_users.find?
              (fun r => r.file_id == file_id && r.user_id == receiver_id) = none →
            db'.share_users.find?
                (fun r => r.file_id == file_id && r.user_id == receiver_id)
              = some { file_id := file_id, user_id := receiver_id,
                       encrypted_key := encrypted_key,
                       edit_permission := edit })) := by
  refine ⟨?_, ?_, ?_, ?_⟩
  · intro h
    unfold share_with_user
    simp [h]
  · intro hne hown
    unfold share_with_user
    simp [hne, hown]
  · intro hne hown hnone
    unfold share_with_user
    simp [hne, hown, hnone]
  · intro db' resp hok
    unfold share_with_user at hok
    by_cases h1 : (receiver_id == owner_id) = true
    · simp [h1] at hok
    · by_cases h2 : is_owner db owner_id file_id = true
      · by_cases h3 : (db.user? receiver_id).isNone = true
        · simp [h1, h2, h3] at hok
        · cases hfind : db.share_users.find?
              (fun r => r.file_id == file_id && r.user_id == receiver_id) with
          | some old0 =>
              simp only [h1, h2, h3, hfind, Bool.false_eq_true, if_false,
                Bool.not_true, Bool.not_false, if_true] at hok
              rw [Except.ok.injEq, Prod.mk.injEq] at hok
              obtain ⟨hdb, hresp⟩ := hok
              refine ⟨by rw [← hresp], ?_, ?_⟩
              · intro old hold
                injection hold with h4
                subst h4
                subst hdb
                dsimp only
                rw [find?_share_update, hfind]
                rfl
              · intro hcontra
                exact Option.noConfusion hcontra
          | none =>
              simp only [h1, h2, h3, hfind, Bool.false_eq_true, if_false,
                Bool.not_true, Bool.not_false, if_true] at hok
              rw [Except.ok.injEq, Prod.mk.injEq] at hok
              obtain ⟨hdb, hresp⟩ := hok
              refine ⟨by rw [← hresp], ?_, ?_⟩
              · intro old hold
                exact Option.noConfusion hold
              · intro _
                subst hdb
                dsimp only
                rw [List.find?_append, hfind]
                simp [List.find?]
      · simp [h1, h2] at hok

/-- C7 witness: the amended theorem applied to `dbC7` — the conflicting
upsert keeps bob's old `edit_permission = false` while storing the new key,
and the response still says `true`. -/
theorem c7_share_upsert_witness :
    (share_with_user dbC7 10 "k1" 1 2 true).toOption.map (fun p => p.2.edit_permission)
        = some true
    ∧ ((share_with_user dbC7 10 "k1" 1 2 true).toOption.bind
        (fun p => p.1.share_users.find?
          (fun r => r.file_id == 10 && r.user_id == 2)))
      = some { file_id := 10, user_id := 2, encrypted_key := "k1",
               edit_permission := false } := by
  cases hok : share_with_user dbC7 10 "k1" 1 2 true with
  | error e =>
      have hok2 : (share_with_user dbC7 10 "k1" 1 2 true).isOk = true := by decide
      rw [hok] at hok2
      simp [Except.isOk, Except.toBool] at hok2
  | ok p =>
      obtain ⟨db', resp⟩ := p
      have h := (c7_share_upsert dbC7 10 "k1" 1 2 true).2.2.2 db' resp hok
      have hfind := h.2.1
        { file_id := 10, user_id := 2, encrypted_key := "k0", edit_permission := false }
        (by decide)
      refine ⟨?_, ?_⟩
      · simp [hok, Except.toOption, h.1]
      · simp only [hok, Except.toOption, Option.bind]
        simpa using hfind

/-! ## C8 — the janitor and never-expiring links -/

/-- The file row the C8 fixture stores: anonymous (no owner, no uploader),
a plain file with a nonce, id 5. -/
def fileC8 : FileRow :=
  { dirRow 5 none with
    owner_id := none, uploader_id := none,
    is_directory := false, file_nonce := some nonce12 }

/-- An anonymous file 5 with a blob, referenced by a share link whose
`expires_at` is NULL (never expires). -/
def dbC8 : DB :=
  { emptyDB with
    now := 100,
    files := [fileC8],
    share_links := [{ id := 9, file_id := 5, expires_at := none,
                      password_hash := none, edit_permission := false }],
    blobs := [5] }

/-- The ids a janitor tick deletes: anonymous files not covered by the
active-link subquery, computed over the link table that survives the
expired-link DELETE. -/
def janitor_deleted (db : DB) : List Nat :=
  (db.files.filter (fun f =>
    f.owner_id == none
    && !((db.share_links.filter (fun l =>
          !(match l.expires_at with
            | some e => decide (e < db.now)
            | none => false))).any
        (fun l => l.file_id == f.id && link_protects db l)))).map
    (fun f => f.id)

theorem clean_up_files_eq (db : DB) :
    (clean_up db).files
      = db.files.filter (fun f => ! (janitor_deleted db).contains f.id) := rfl

theorem clean_up_blobs_eq (db : DB) :
    (clean_up db).blobs
      = db.blobs.filter (fun b => ! (janitor_deleted db).contains b) := rfl

theorem link_protects_iff (db : DB) (l : ShareLinkRow) :
    link_protects db l = true ↔ ∃ e, l.expires_at = some e ∧ db.now ≤ e := by
  unfold link_protects
  cases he : l.expires_at with
  | none => simp
  | some e => simp

theorem janitor_protected_iff (db : DB) (fid : Nat) :
    ((db.share_links.filter (fun l =>
        !(match l.expires_at with
          | some e => decide (e < db.now)
          | none => false))).any
      (fun l => l.file_id == fid && link_protects db l)) = true
    ↔ ∃ l ∈ db.share_links, l.file_id = fid
        ∧ ∃ e, l.expires_at = some e ∧ db.now ≤ e := by
  simp only [List.any_eq_true]
  constructor
  · rintro ⟨l, hl, hcond⟩
    rw [List.mem_filter] at hl
    rw [Bool.and_eq_true] at hcond
    rcases hcond with ⟨hfid, hp⟩
    exact ⟨l, hl.1, by simpa using hfid, (link_protects_iff db l).mp hp⟩
  · rintro ⟨l, hl, hfid, e, he, hle⟩
    refine ⟨l, ?_, ?_⟩
    · rw [List.mem_filter]
      refine ⟨hl, ?_⟩
      rw [he]
      simp [not_lt.mpr hle]
    · rw [Bool.and_eq_true]
      exact ⟨by simp [hfid], (link_protects_iff db l).mpr ⟨e, he, hle⟩⟩

theorem mem_janitor_deleted (db : DB) (i : Nat) :
    i ∈ janitor_deleted db
    ↔ ∃ g ∈ db.files, g.id = i ∧ g.owner_id = none
        ∧ ¬ ∃ l ∈ db.share_links, l.file_id = g.id
            ∧ ∃ e, l.expires_at = some e ∧ db.now ≤ e := by
  unfold janitor_deleted
  rw [List.mem_map]
  constructor
  · rintro ⟨g, hg, hid⟩
    simp only [List.mem_filter] at hg
    have hg2 := hg.2
    rw [Bool.and_eq_true] at hg2
    rcases hg2 with ⟨hown, hnot⟩
    refine ⟨g, hg.1, hid, by simpa using hown, ?_⟩
    intro hc
    exact absurd ((janitor_protected_iff db g.id).mpr hc) (by simpa using hnot)
  · rintro ⟨g, hg, hid, hown, hnot⟩
    refine ⟨g, ?_, hid⟩
    simp only [List.mem_filter]
    refine ⟨hg, ?_⟩
    rw [Bool.and_eq_true]
    refine ⟨by simp [hown], ?_⟩
    simp only [Bool.not_eq_true']
    cases hx : ((db.share_links.filter (fun l =>
        !(match l.expires_at with
          | some e => decide (e < db.now)
          | none => false))).any
      (fun l => l.file_id == g.id && link_protects db l)) with
    | false => rfl
    | true => exact absurd ((janitor_protected_iff db g.id).mp hx) hnot

/-- C8 counterexample: the claim says an anonymous file referenced by an
active link (`expires_at` null **or** in the future) is never deleted.  The
janitor subquery `DATETIME(expires_at) >= CURRENT_TIMESTAMP` is NULL when
`expires_at` is NULL (utils.rs:151), so file 5 — protected per the claim by
its never-expiring link 9 — is deleted and its blob removed. -/
theorem c8_counterexample :
    (dbC8.share_links.any (fun l => l.file_id == 5 && l.expires_at == none)) = true
    ∧ (clean_up dbC8).files.find? (fun f => f.id == 5) = none
    ∧ (clean_up dbC8).blobs = [] := by
  decide

/-- C8 (amended): a janitor tick deletes exactly the anonymous files that
have no share link with a **non-null** `expires_at` at or after `now` — a
never-expiring link (NULL `expires_at`) does not protect a file — and it
removes exactly the blobs of the deleted files.  (`hkey`: file ids are a
primary key.) -/
theorem c8_janitor (db : DB)
    (hkey : ∀ f ∈ db.files, ∀ g ∈ db.files, f.id = g.id → f = g) :
    (∀ f, f ∈ (clean_up db).files ↔ f ∈ db.files ∧
      (f.owner_id ≠ none ∨ ∃ l ∈ db.share_links, l.file_id = f.id
        ∧ ∃ e, l.expires_at = some e ∧ db.now ≤ e))
    ∧ (∀ b, b ∈ (clean_up db).blobs ↔ b ∈ db.blobs ∧
      ∀ f ∈ db.files, f.id = b → f.owner_id = none →
        ∃ l ∈ db.share_links, l.file_id = f.id
          ∧ ∃ e, l.expires_at = some e ∧ db.now ≤ e) := by
  constructor
  · intro f
    rw [clean_up_files_eq]
    simp only [List.mem_filter, Bool.not_eq_true']
    constructor
    · rintro ⟨hmem, hnd⟩
      refine ⟨hmem, ?_⟩
      by_cases hown : f.owner_id = none
      · right
        by_contra hnp
        have hdel : f.id ∈ janitor_deleted db :=
          (mem_janitor_deleted db f.id).mpr ⟨f, hmem, rfl, hown, hnp⟩
        have hc : (janitor_deleted db).contains f.id = true := by
          simpa using hdel
        rw [hc] at hnd
        exact Bool.noConfusion hnd
      · exact Or.inl hown
    · rintro ⟨hmem, hprot⟩
      refine ⟨hmem, ?_⟩
      cases hc : (janitor_deleted db).contains f.id with
      | false => rfl
      | true =>
          have hdel : f.id ∈ janitor_deleted db := by
            simpa using hc
          rcases (mem_janitor_deleted db f.id).mp hdel with ⟨g, hg, hgid, hgown, hgnp⟩
          have hfg : f = g := hkey f hmem g hg hgid.symm
          subst hfg
          rcases hprot with hprot | hprot
          · exact absurd hgown hprot
          · exact absurd hprot hgnp
  · intro b
    rw [clean_up_blobs_eq]
    simp only [List.mem_filter, Bool.not_eq_true']
    constructor
    · rintro ⟨hmem, hnd⟩
      refine ⟨hmem, ?_⟩
      intro f hf hfb hown
      by_contra hnp
      have hdel : b ∈ janitor_deleted db :=
        (mem_janitor_deleted db b).mpr ⟨f, hf, hfb, hown, hnp⟩
      have hc : (janitor_deleted db).contains b = true := by
        simpa using hdel
      rw [hc] at hnd
      exact Bool.noConfusion hnd
    · rintro ⟨hmem, hprot⟩
      refine ⟨hmem, ?_⟩
      cases hc : (janitor_deleted db).contains b with
      | false => rfl
      | true =>
          have hdel : b ∈ janitor_deleted db := by
            simpa using hc
          rcases (mem_janitor_deleted db b).mp hdel with ⟨g, hg, hgid, hgown, hgnp⟩
          exact absurd (hprot g hg hgid hgown) hgnp

set_option maxRecDepth 100000 in
/-- Witness for `c8_janitor` at the C2 fixture `dbC2` (three owned
directories): the key hypothesis holds by evaluation and the blob
characterization follows by applying the theorem. -/
theorem c8_janitor_witness :
    (∀ f ∈ dbC2.files, ∀ g ∈ dbC2.files, f.id = g.id → f = g)
    ∧ ∀ b, b ∈ (clean_up dbC2).blobs ↔ b ∈ dbC2.blobs ∧
        ∀ f ∈ dbC2.files, f.id = b → f.owner_id = none →
          ∃ l ∈ dbC2.share_links, l.file_id = f.id
            ∧ ∃ e, l.expires_at = some e ∧ dbC2.now ≤ e :=
  ⟨by decide, (c8_janitor dbC2 (by decide)).2⟩

/-! ## C9 — user search ranking and pagination -/

def u1C9 : UserRow :=
  { id := 1, username := "aaa", email := none, total_space := 0, used_space := 0 }

def u2C9 : UserRow :=
  { id := 2, username := "aab", email := none, total_space := 0, used_space := 0 }

def dbC9 : DB := { emptyDB with users := [u1C9, u2C9] }

/-- C9 counterexample: with `limit = 1` at most one user should come back;
`search_users` pages with `skip(offset * limit).take(10)` (users.rs:973-975)
— the page size is hardcoded to 10 and `limit` only scales the offset — so
searching "aaa" returns both users. -/
theorem c9_counterexample :
    search_users dbC9 "aaa" SortOrder.BestMatch 1 0 = .ok [u1C9, u2C9]
    ∧ 1 < [u1C9, u2C9].length := by
  constructor
  · decide
  · decide

/-- C9 (amended): a successful search returns at most **10** users (the
hardcoded page size; `limit` only scales the offset, the page is
`drop (offset * limit) |> take 10` of the distance-ranked list), all drawn
from the user table, ordered by the requested secondary sort — nondecreasing
Levenshtein distance to the query for best-match, lexicographic username for
alphabetical, nondecreasing username byte length for shortest. -/
theorem c9_search (db : DB) (query : String) (sort : SortOrder)
    (limit offset : Nat) (us : List UserRow)
    (h : search_users db query sort limit offset = .ok us) :
    us.length ≤ 10
    ∧ (∀ u ∈ us, u ∈ db.users)
    ∧ (match sort with
       | SortOrder.BestMatch => us.Pairwise (fun u v =>
           levenshtien query u.username ≤ levenshtien query v.username)
       | SortOrder.Alphabetical => us.Pairwise (fun u v => u.username ≤ v.username)
       | SortOrder.Shortest => us.Pairwise (fun u v =>
           u.username.utf8ByteSize ≤ v.username.utf8ByteSize)) := by
  unfold search_users at h
  by_cases h1 : query.utf8ByteSize < MIN_USERNAME_LENGTH
  · rw [if_pos h1] at h
    exact absurd h (by simp)
  rw [if_neg h1] at h
  by_cases h2 : query.utf8ByteSize > MAX_USERNAME_LENGTH
  · rw [if_pos h2] at h
    exact absurd h (by simp)
  rw [if_neg h2] at h
  simp only [Except.ok.injEq] at h
  subst h
  haveI hR : IsTotal UserRow (fun u v =>
      levenshtien query u.username ≤ levenshtien query v.username) :=
    ⟨fun a b => Nat.le_total _ _⟩
  haveI hT : IsTrans UserRow (fun u v =>
      levenshtien query u.username ≤ levenshtien query v.username) :=
    ⟨fun a b c hab hbc => Nat.le_trans hab hbc⟩
  cases sort with
  | BestMatch =>
      dsimp only
      refine ⟨List.length_take_le _ _, ?_, ?_⟩
      · intro u hu
        exact (List.perm_insertionSort _ db.users).mem_iff.mp
          (List.mem_of_mem_drop (List.mem_of_mem_take hu))
      · exact List.Pairwise.sublist
          ((List.take_sublist _ _).trans (List.drop_sublist _ _))
          (List.sorted_insertionSort _ db.users)
  | Alphabetical =>
      dsimp only
      haveI : IsTotal UserRow (fun u v : UserRow => u.username ≤ v.username) :=
        ⟨fun a b => le_total _ _⟩
      haveI : IsTrans UserRow (fun u v : UserRow => u.username ≤ v.username) :=
        ⟨fun a b c hab hbc => le_trans hab hbc⟩
      refine ⟨?_, ?_, ?_⟩
      · rw [List.length_insertionSort]
        exact List.length_take_le _ _
      · intro u hu
        have hu1 := (List.perm_insertionSort _ _).mem_iff.mp hu
        exact (List.perm_insertionSort _ db.users).mem_iff.mp
          (List.mem_of_mem_drop (List.mem_of_mem_take hu1))
      · exact List.sorted_insertionSort _ _
  | Shortest =>
      dsimp only
      haveI : IsTotal UserRow (fun u v : UserRow =>
          u.username.utf8ByteSize ≤ v.username.utf8ByteSize) :=
        ⟨fun a b => Nat.le_total _ _⟩
      haveI : IsTrans UserRow (fun u v : UserRow =>
          u.username.utf8ByteSize ≤ v.username.utf8ByteSize) :=
        ⟨fun a b c hab hbc => Nat.le_trans hab hbc⟩
      refine ⟨?_, ?_, ?_⟩
      · rw [List.length_insertionSort]
        exact List.length_take_le _ _
      · intro u hu
        have hu1 := (List.perm_insertionSort _ _).mem_iff.mp hu
        exact (List.perm_insertionSort _ db.users).mem_iff.mp
          (List.mem_of_mem_drop (List.mem_of_mem_take hu1))
      · exact List.sorted_insertionSort _ _

/-- Witness for `c9_search`: applying it to the fixture search that returned
both users. -/
theorem c9_search_witness :
    search_users dbC9 "aaa" SortOrder.BestMatch 1 0 = .ok [u1C9, u2C9]
    ∧ ([u1C9, u2C9].length ≤ 10
      ∧ (∀ u ∈ [u1C9, u2C9], u ∈ dbC9.users)
      ∧ [u1C9, u2C9].Pairwise (fun u v =>
          levenshtien "aaa" u.username ≤ levenshtien "aaa" v.username)) :=
  ⟨by decide, by
    have h := c9_search dbC9 "aaa" SortOrder.BestMatch 1 0 [u1C9, u2C9] (by decide)
    exact ⟨h.1, h.2.1, h.2.2⟩⟩
